import Mathlib

/-!
Verification of the promptathon-api AI orchestration pipeline.

Shallow embedding of the core pipeline code:
  * `src/functions/generateAnswers/generateAnswers.ts`
    (answer fan-out, `sanitizeInput`, result filtering, aiResponses patch)
  * `src/functions/generateJudgements.ts`
    (judge conversation runner, `waitForRunCompletion` poll loop,
     `parseFormattedResponse`, score aggregation, player patches)

Strings are modelled as `List Char`.  JavaScript regular-expression matching
is modelled by bespoke scanners that mirror each concrete regex of the source
(leftmost match; lazy/greedy quantifiers are reproduced exactly where the
following literal is disjoint from the quantified class, which holds for every
input class quantified over in the theorems below).  Wall-clock sleeping is
modelled by recording the slept durations.  The document store is modelled as
an association list; the Cosmos DB partial-document-update operation
`{op:"add", path:"/member"}` sets the member, replacing an existing value
(RFC 6902 / Cosmos "add" semantics).
-/

namespace PQuiz

/-- JavaScript `\s` (ASCII part: space, tab, LF, VT, FF, CR). -/
def isWsChar (c : Char) : Bool :=
  c.toNat == 32 || c.toNat == 9 || c.toNat == 10 || c.toNat == 13 ||
  c.toNat == 11 || c.toNat == 12

/-- JavaScript `\d`, i.e. `[0-9]`. -/
def isDigitCh (c : Char) : Bool :=
  48 ≤ c.toNat && c.toNat ≤ 57

/-- JavaScript `\w`, i.e. `[A-Za-z0-9_]`. -/
def isWordCh (c : Char) : Bool :=
  (65 ≤ c.toNat && c.toNat ≤ 90) || (97 ≤ c.toNat && c.toNat ≤ 122) ||
  isDigitCh c || c.toNat == 95

/-- The punctuation allowed by `sanitizeInput`'s character class `[.,?!;:()'"]`. -/
def isSanPunct (c : Char) : Bool :=
  c == '.' || c == ',' || c == '?' || c == '!' || c == ';' || c == ':' ||
  c == '(' || c == ')' || c == '\'' || c == '"'

/-- The allow-list of `sanitizeInput`: `[^\w\s.,?!;:()'"]` is replaced. -/
def sanAllowed (c : Char) : Bool :=
  isWordCh c || isWsChar c || isSanPunct c

/-- `input.replace(/^\s+|\s+$/g, "")` : trim leading and trailing whitespace. -/
def trimCh (l : List Char) : List Char :=
  ((l.dropWhile isWsChar).reverse.dropWhile isWsChar).reverse

/-- `input.replace(/[^\w\s.,?!;:()'"]/g, " ")` : disallowed characters become a space. -/
def replaceDisallowed (l : List Char) : List Char :=
  l.map (fun c => if sanAllowed c then c else ' ')

/-- Worker for `collapseWs`: the flag records whether the previous character
was whitespace (in which case the current run already emitted its space). -/
def collapseGo : Bool → List Char → List Char
  | _, [] => []
  | true, c :: rest =>
    if isWsChar c then collapseGo true rest else c :: collapseGo false rest
  | false, c :: rest =>
    if isWsChar c then ' ' :: collapseGo true rest else c :: collapseGo false rest

/-- `input.replace(/\s+/g, " ")` : each maximal whitespace run becomes a
single space. -/
def collapseWs (l : List Char) : List Char :=
  collapseGo false l

/-- `sanitizeInput` from `generateAnswers.ts` (the `!input` guard returns `""`,
which coincides with the pipeline below on the empty list). -/
def sanitizeInput (l : List Char) : List Char :=
  collapseWs (replaceDisallowed (trimCh l))

/-- `true` iff the list neither starts nor ends with a whitespace character. -/
def edgeWsFree (l : List Char) : Bool :=
  (match l.head? with | some c => !isWsChar c | none => true) &&
  (match l.getLast? with | some c => !isWsChar c | none => true)

/-! ### Regex-matching primitives

Each JavaScript regex of the source is transcribed into a scanner built from
the primitives below.  `firstMatch` mirrors `String.prototype.match`: it
tries the pattern at every position, left to right, and returns the first
success (the leftmost match). -/

/-- ASCII lower-casing on code points, for the `/i` regex flag. -/
def lowerN (c : Char) : Nat :=
  if 65 ≤ c.toNat ∧ c.toNat ≤ 90 then c.toNat + 32 else c.toNat

/-- Case-insensitive character comparison (`/i` flag). -/
def ciEq (p c : Char) : Bool :=
  lowerN p == lowerN c

/-- Match a literal, case-insensitively; returns the rest of the input. -/
def matchLit : List Char → List Char → Option (List Char)
  | [], s => some s
  | _ :: _, [] => none
  | p :: ps, c :: cs => if ciEq p c then matchLit ps cs else none

/-- Match a literal, case-sensitively; returns the rest of the input. -/
def matchLitCS : List Char → List Char → Option (List Char)
  | [], s => some s
  | _ :: _, [] => none
  | p :: ps, c :: cs => if p == c then matchLitCS ps cs else none

/-- `\s*` (greedy). -/
def wsStar (s : List Char) : List Char :=
  s.dropWhile isWsChar

/-- `\s+` (greedy). -/
def wsPlus (s : List Char) : Option (List Char) :=
  match s with
  | [] => none
  | c :: cs => if isWsChar c then some (wsStar cs) else none

/-- `(\d+)` (greedy): the captured digit run and the rest of the input. -/
def digitsPlus (s : List Char) : Option (List Char × List Char) :=
  let d := s.takeWhile isDigitCh
  if d.isEmpty then none else some (d, s.dropWhile isDigitCh)

/-- Leftmost match: try the position matcher `f` at every suffix. -/
def firstMatch {α : Type} (f : List Char → Option α) : List Char → Option α
  | [] => f []
  | c :: s =>
    match f (c :: s) with
    | some r => some r
    | none => firstMatch f s

/-- JavaScript `parseInt` on a digit capture. -/
def parseDigits (l : List Char) : Nat :=
  l.foldl (fun n c => n * 10 + (c.toNat - 48)) 0

/-- `String.prototype.includes` (case-sensitive substring test). -/
def containsSub (needle : List Char) : List Char → Bool
  | [] => (matchLitCS needle []).isSome
  | c :: t => (matchLitCS needle (c :: t)).isSome || containsSub needle t

/-! ### The poll loop `waitForRunCompletion` (generateJudgements.ts)

The loop's interaction with the provider is modelled by a finite script of
poll results: each entry is either a run status returned by
`runs.retrieve` or a message thrown by it.  Real-time sleeping is modelled
by recording the rate-limit wait durations; the returned trace also counts
the number of poll (retrieve) calls made. -/

inductive RunStatus where
  | completed
  | failed (lastError : Option (List Char))
  | cancelled
  | expired
  | requiresAction
  | queued
  | inProgress
deriving DecidableEq

inductive PollResult where
  | status (s : RunStatus)
  | raised (msg : List Char)
deriving DecidableEq

inductive WaitOutcome where
  | completed
  | threw (msg : List Char)
  | timedOut (msg : List Char)
  | scriptExhausted
deriving DecidableEq

structure WaitTrace where
  outcome : WaitOutcome
  polls : Nat
  rateWaits : List Nat
deriving DecidableEq

/-- The message of the `Error` thrown for `failed` runs:
`` `Run failed${errorDetails}` ``. -/
def runFailedMsg (le : Option (List Char)) : List Char :=
  ("Run failed").toList ++ (match le with
    | some m => (": ").toList ++ m
    | none => [])

/-- The message thrown by the `switch` for each terminal non-success status. -/
def thrownMsgOf : RunStatus → Option (List Char)
  | .failed le => some (runFailedMsg le)
  | .cancelled => some (("Run cancelled").toList)
  | .expired => some (("Run expired").toList)
  | .requiresAction => some (("Run requires action - not supported").toList)
  | _ => none

/-- `maxAttempts = 30` from the source. -/
def maxAttempts : Nat := 30

/-- The `error.message?.includes("Rate limit")` test of the catch block. -/
def rlNeedle : List Char := ("Rate limit").toList

/-- The regex `/Try again in (\d+) seconds/` applied at one position. -/
def tryAgainAt (s : List Char) : Option (List Char) :=
  (matchLitCS (("Try again in ").toList) s).bind fun r =>
    (digitsPlus r).bind fun dr =>
      (matchLitCS ((" seconds").toList) dr.2).map fun _ => dr.1

/-- Rate-limit wait duration: the advertised number of seconds, or 60 when
the message does not match `/Try again in (\d+) seconds/`. -/
def rateWaitOf (msg : List Char) : Nat :=
  match firstMatch tryAgainAt msg with
  | some d => parseDigits d
  | none => 60

/-- The `while (attempts < maxAttempts)` loop of `waitForRunCompletion`.
`a` is `attempts`, `made` counts retrieve calls, `rw` records rate-limit
waits.  A thrown message containing `"Rate limit"` (whether thrown by
`retrieve` or by the `switch` itself) is caught, the advertised delay is
waited, and the loop continues without incrementing `attempts`. -/
def waitGo : List PollResult → Nat → Nat → List Nat → WaitTrace
  | polls, a, made, rw =>
    if a ≥ maxAttempts then
      ⟨.timedOut (("Run timed out after 30 seconds").toList), made, rw⟩
    else
      match polls with
      | [] => ⟨.scriptExhausted, made, rw⟩
      | .raised m :: rest =>
        if containsSub rlNeedle m then
          waitGo rest a (made + 1) (rw ++ [rateWaitOf m])
        else ⟨.threw m, made + 1, rw⟩
      | .status .completed :: _ => ⟨.completed, made + 1, rw⟩
      | .status st :: rest =>
        match thrownMsgOf st with
        | some m =>
          if containsSub rlNeedle m then
            waitGo rest a (made + 1) (rw ++ [rateWaitOf m])
          else ⟨.threw m, made + 1, rw⟩
        | none => waitGo rest (a + 1) (made + 1) rw

/-- `waitForRunCompletion` itself: the loop started with `attempts = 0`. -/
def waitForRunCompletion (polls : List PollResult) : WaitTrace :=
  waitGo polls 0 0 []

/-! ### The response parser `parseFormattedResponse` (generateJudgements.ts)

Each regex of the source is transcribed position-matcher by position-matcher:

  * `` /```([\s\S]*?)```/ `` is `cbAt`;
  * `/^###\s*Evaluation:?\s*/i` is `hdr1At`;
  * `/^(?:\*\*)?Evaluation(?:\*\*)?:?\s*\n?/i` is `hdr2At`;
  * `/\*\*L\s+Score:\*\*\s*(\d+)/i`, `/\*\*L\s+Score\*\*:\s*(\d+)/i` and
    `/L\s+Score:\s*(\d+)/i` are `scoreAt1 L`, `scoreAt2 L`, `scoreAt3 L`;
  * the three justification patterns are `justAt1`, `justAt2`, `justAt3`,
    with lazy capture `lazyCap1` and the lookaheads `lookEmph`
    (`(?=\n\*\*|\n$|$)`) and `lookPlain` (`(?=\n\S+:|\n$|$)`).

Greedy `\s*`/`\s+`/`\d+` runs are taken without backtracking; this agrees
with the regexes because each is followed by a literal or class disjoint
from the quantified class (the only exception, `\s*` before the lazy
justification capture, can backtrack in JS only when the captured text
would otherwise be empty, which the round-trip theorem's hypotheses
exclude). -/

/-- The fence literal. -/
def cbFence : List Char := ("```").toList

/-- Lazy `([\s\S]*?)` capture up to a closing fence. -/
def cbInner : List Char → Option (List Char)
  | [] => if (matchLitCS cbFence []).isSome then some [] else none
  | c :: t =>
    if (matchLitCS cbFence (c :: t)).isSome then some []
    else (cbInner t).map (c :: ·)

/-- `` /```([\s\S]*?)```/ `` at one position. -/
def cbAt (s : List Char) : Option (List Char) :=
  (matchLitCS cbFence s).bind cbInner

/-- `if (codeBlockMatch) response = codeBlockMatch[1].trim();`. -/
def stripCodeBlock (s : List Char) : List Char :=
  match firstMatch cbAt s with
  | some inner => trimCh inner
  | none => s

/-- Optional `:?`. -/
def optColon : List Char → List Char
  | ':' :: t => t
  | s => s

/-- Optional literal (`(?:lit)?`, greedy; exact here because the continuation
can never start with the literal's first character). -/
def optLit (lit : List Char) (s : List Char) : List Char :=
  match matchLit lit s with
  | some r => r
  | none => s

/-- `/^###\s*Evaluation:?\s*/i` (anchored). -/
def hdr1At (s : List Char) : Option (List Char) :=
  (matchLit (("###").toList) s).bind fun r1 =>
    (matchLit (("Evaluation").toList) (wsStar r1)).map fun r2 =>
      wsStar (optColon r2)

/-- `response.replace(/^###\s*Evaluation:?\s*/i, "")`. -/
def stripHdr1 (s : List Char) : List Char :=
  match hdr1At s with
  | some rest => rest
  | none => s

/-- `/^(?:\*\*)?Evaluation(?:\*\*)?:?\s*\n?/i` (anchored; the trailing `\n?`
is subsumed by the greedy `\s*`). -/
def hdr2At (s : List Char) : Option (List Char) :=
  (matchLit (("Evaluation").toList) (optLit (("**").toList) s)).map fun r =>
    wsStar (optColon (optLit (("**").toList) r))

/-- `response.replace(/^(?:\*\*)?Evaluation(?:\*\*)?:?\s*\n?/i, "")`. -/
def stripHdr2 (s : List Char) : List Char :=
  match hdr2At s with
  | some rest => rest
  | none => s

/-- `/\*\*L\s+Score:\*\*\s*(\d+)/i` at one position (`L` the label word). -/
def scoreAt1 (label : List Char) (s : List Char) : Option (List Char) :=
  (matchLit ('*' :: '*' :: label) s).bind fun r1 =>
    (wsPlus r1).bind fun r2 =>
      (matchLit (("Score:**").toList) r2).bind fun r3 =>
        (digitsPlus (wsStar r3)).map (·.1)

/-- `/\*\*L\s+Score\*\*:\s*(\d+)/i` at one position. -/
def scoreAt2 (label : List Char) (s : List Char) : Option (List Char) :=
  (matchLit ('*' :: '*' :: label) s).bind fun r1 =>
    (wsPlus r1).bind fun r2 =>
      (matchLit (("Score**:").toList) r2).bind fun r3 =>
        (digitsPlus (wsStar r3)).map (·.1)

/-- `/L\s+Score:\s*(\d+)/i` at one position. -/
def scoreAt3 (label : List Char) (s : List Char) : Option (List Char) :=
  (matchLit label s).bind fun r1 =>
    (wsPlus r1).bind fun r2 =>
      (matchLit (("Score:").toList) r2).bind fun r3 =>
        (digitsPlus (wsStar r3)).map (·.1)

/-- The `match(p1) || match(p2) || match(p3)` chain for one score field. -/
def matchScore (label : List Char) (r : List Char) : Option (List Char) :=
  match firstMatch (scoreAt1 label) r with
  | some d => some d
  | none =>
    match firstMatch (scoreAt2 label) r with
    | some d => some d
    | none => firstMatch (scoreAt3 label) r

/-- Lazy `([\s\S]+?)` capture: the shortest nonempty prefix whose remainder
satisfies the lookahead. -/
def lazyCap1 (look : List Char → Bool) : List Char → Option (List Char)
  | [] => none
  | c :: rest =>
    if look rest then some [c] else (lazyCap1 look rest).map (c :: ·)

/-- `\S+:` scan for the plain-justification lookahead (with the implicit
backtracking of `\S+` before the final `:`). -/
def nonWsColonScan : List Char → Bool → Bool
  | [], _ => false
  | c :: r, seen =>
    if isWsChar c then false
    else if c == ':' && seen then true
    else nonWsColonScan r true

/-- Lookahead `(?=\n\*\*|\n$|$)`. -/
def lookEmph (t : List Char) : Bool :=
  (matchLitCS (("\n**").toList) t).isSome ||
  (match t with
   | [] => true
   | c :: u => c == '\n' && u.isEmpty)

/-- Lookahead `(?=\n\S+:|\n$|$)`. -/
def lookPlain (t : List Char) : Bool :=
  match t with
  | [] => true
  | c :: u =>
    c == '\n' &&
    (match u with
     | [] => true
     | _ => nonWsColonScan u false)

/-- `/\*\*Justification:\*\*\s*([\s\S]+?)(?=\n\*\*|\n$|$)/i` at one position. -/
def justAt1 (s : List Char) : Option (List Char) :=
  (matchLit ('*' :: '*' :: (("Justification:**").toList)) s).bind fun r =>
    lazyCap1 lookEmph (wsStar r)

/-- `/\*\*Justification\*\*:\s*([\s\S]+?)(?=\n\*\*|\n$|$)/i` at one position. -/
def justAt2 (s : List Char) : Option (List Char) :=
  (matchLit ('*' :: '*' :: (("Justification**:").toList)) s).bind fun r =>
    lazyCap1 lookEmph (wsStar r)

/-- `/Justification:\s*([\s\S]+?)(?=\n\S+:|\n$|$)/i` at one position. -/
def justAt3 (s : List Char) : Option (List Char) :=
  (matchLit (("Justification:").toList) s).bind fun r =>
    lazyCap1 lookPlain (wsStar r)

/-- The `match(p1) || match(p2) || match(p3)` chain for the justification. -/
def matchJust (r : List Char) : Option (List Char) :=
  match firstMatch justAt1 r with
  | some j => some j
  | none =>
    match firstMatch justAt2 r with
    | some j => some j
    | none => firstMatch justAt3 r

structure ParseOut where
  contextScore : Nat
  technicalScore : Nat
  clarityScore : Nat
  totalScore : Nat
  justification : List Char
deriving DecidableEq

/-- `parseFormattedResponse` from `generateJudgements.ts`: preprocessing,
then the four score fields and the justification, failing (in the source,
throwing) with the message naming the first missing field. -/
def parseFormattedResponse (response : List Char) : Except (List Char) ParseOut :=
  let r := stripHdr2 (stripHdr1 (stripCodeBlock response))
  match matchScore (("Context").toList) r with
  | none => .error (("Could not parse Context Score").toList)
  | some d1 =>
    match matchScore (("Technical").toList) r with
    | none => .error (("Could not parse Technical Score").toList)
    | some d2 =>
      match matchScore (("Clarity").toList) r with
      | none => .error (("Could not parse Clarity Score").toList)
      | some d3 =>
        match matchScore (("Final").toList) r with
        | none => .error (("Could not parse Final Score").toList)
        | some d4 =>
          match matchJust r with
          | none => .error (("Could not parse Justification").toList)
          | some j =>
            .ok ⟨parseDigits d1, parseDigits d2, parseDigits d3,
                 parseDigits d4, trimCh j⟩

/-! ### The judge conversation runner (one `aiResponses.map` task)

The task's interaction with the provider is a script of call outcomes.
`deleteOk` is the outcome of the cleanup `threads.del` call; the source
catches and logs a cleanup fault, so it influences nothing.  Timestamps are
abstracted as the empty string. -/

structure AIAnswer where
  id : List Char
  gameId : List Char
  playerId : List Char
  playerName : List Char
  questionId : List Char
  question : List Char
  assistantPrompt : List Char
  answer : List Char
  timestamp : List Char
deriving DecidableEq

structure Judgement where
  id : List Char
  gameId : List Char
  aiAnswerId : List Char
  playerId : List Char
  playerName : List Char
  questionId : List Char
  contextScore : Nat
  technicalScore : Nat
  clarityScore : Nat
  totalScore : Nat
  justification : List Char
  timestamp : List Char
deriving DecidableEq

instance {ε α : Type} [DecidableEq ε] [DecidableEq α] : DecidableEq (Except ε α) :=
  fun a b =>
    match a, b with
    | .ok x, .ok y => decidable_of_iff (x = y) (by simp)
    | .error x, .error y => decidable_of_iff (x = y) (by simp)
    | .ok _, .error _ => isFalse Except.noConfusion
    | .error _, .ok _ => isFalse Except.noConfusion

structure RunnerScript where
  createThread : Except (List Char) (List Char)
  sendMessage : Except (List Char) Unit
  createRun : Except (List Char) (List Char)
  polls : List PollResult
  listMessages : Except (List Char) (List (List (Option (List Char))))
  deleteOk : Bool
deriving DecidableEq

/-- The poll loop's contribution to the task: `completed` continues, any
fault propagates.  (`scriptExhausted` marks an under-specified finite
script; no theorem relies on it.) -/
def pollOutcome (polls : List PollResult) : Except (List Char) Unit :=
  match (waitForRunCompletion polls).outcome with
  | .completed => .ok ()
  | .threw m => .error m
  | .timedOut m => .error m
  | .scriptExhausted => .error (("poll script exhausted").toList)

/-- One `aiResponses.map` task of `generateJudgements`: the
`try`/`catch`/`finally` body.  Returns the task's outcome together with the
number of `threads.del` (cleanup) attempts made by the `finally` block,
which deletes only when `thread?.id` is set, i.e. when creation succeeded. -/
def runJudgeOne (gameId : List Char) (resp : AIAnswer) (script : RunnerScript) :
    Except (List Char) Judgement × Nat :=
  match script.createThread with
  | .error e => (.error e, 0)
  | .ok _tid =>
    let body : Except (List Char) Judgement :=
      match script.sendMessage with
      | .error e => .error e
      | .ok _ =>
        match script.createRun with
        | .error e => .error e
        | .ok _ =>
          match pollOutcome script.polls with
          | .error e => .error e
          | .ok _ =>
            match script.listMessages with
            | .error e => .error e
            | .ok msgs =>
              match msgs with
              | [] => .error (("No messages found in thread").toList)
              | lastMessage :: _ =>
                match lastMessage.find? (fun block => block.isSome) with
                | some (some txt) =>
                  match parseFormattedResponse txt with
                  | .error e => .error e
                  | .ok pc =>
                    .ok ⟨gameId ++ ("-judge-").toList ++ resp.id, gameId,
                         resp.id, resp.playerId, resp.playerName,
                         resp.questionId, pc.contextScore, pc.technicalScore,
                         pc.clarityScore, pc.totalScore, pc.justification, []⟩
                | _ =>
                  .error (("No text content found in assistant response").toList)
    (body, 1)

/-! ### Score aggregation and the judgement pipeline -/

structure PlayerScore where
  totalScores : List Nat
  contextScores : List Nat
  technicalScores : List Nat
  clarityScores : List Nat
deriving DecidableEq

/-- One `judgements.forEach` step: push the four sub-scores onto the
player's entry, creating it (at the end, preserving first-occurrence key
order as a JS object does) if absent. -/
def addScore (pid : List Char) (j : Judgement) :
    List (List Char × PlayerScore) → List (List Char × PlayerScore)
  | [] => [(pid, ⟨[j.totalScore], [j.contextScore], [j.technicalScore], [j.clarityScore]⟩)]
  | (k, ps) :: rest =>
    if k == pid then
      (k, ⟨ps.totalScores ++ [j.totalScore], ps.contextScores ++ [j.contextScore],
           ps.technicalScores ++ [j.technicalScore], ps.clarityScores ++ [j.clarityScore]⟩)
        :: rest
    else (k, ps) :: addScore pid j rest

/-- The `playerScores` record built by the `judgements.forEach` loop. -/
def buildPlayerScores (js : List Judgement) : List (List Char × PlayerScore) :=
  js.foldl (fun acc j => addScore j.playerId j acc) []

/-- `scores.totalScores.reduce((sum, score) => sum + score, 0)`. -/
def combinedTotal (l : List Nat) : Nat :=
  l.foldl (fun sum score => sum + score) 0

/-- JavaScript `x || dflt` on an optional string (empty string is falsy). -/
def jsOrStr (o : Option (List Char)) (dflt : List Char) : List Char :=
  match o with
  | some s => if s.isEmpty then dflt else s
  | none => dflt

structure PlayerDoc where
  screenName : List Char
  totalScore : Option Nat
  themeName : Option (List Char)
deriving DecidableEq

/-- The player container for one game, keyed by player id. -/
abbrev PlayerStore := List (List Char × PlayerDoc)

/-- Patch an existing player document (present keys only, like a Cosmos
patch on a read document). -/
def storeSet (pid : List Char) (v : PlayerDoc) (st : PlayerStore) : PlayerStore :=
  st.map fun kv => if kv.1 == pid then (kv.1, v) else kv

/-- The per-player update tasks: read the player; if present, patch
`totalScore` with the combined total and `themeName` with
`game.judge?.theme || "Unknown Theme"`; if absent, skip (logged).  The
tasks touch pairwise distinct keys, so the concurrent join equals this
sequential fold. -/
def updateOnePlayer (theme : Option (List Char)) (st : PlayerStore)
    (kv : List Char × PlayerScore) : PlayerStore :=
  match st.lookup kv.1 with
  | some pd =>
    storeSet kv.1
      { pd with
        totalScore := some (combinedTotal kv.2.totalScores),
        themeName := some (jsOrStr theme (("Unknown Theme").toList)) } st
  | none => st

def updatePlayers (theme : Option (List Char))
    (entries : List (List Char × PlayerScore)) (st : PlayerStore) : PlayerStore :=
  entries.foldl (updateOnePlayer theme) st

/-- The Score Aggregator: group judgements by player, then write each
present player's combined total and theme name. -/
def scoreAggregator (theme : Option (List Char)) (js : List Judgement)
    (st : PlayerStore) : PlayerStore :=
  updatePlayers theme (buildPlayerScores js) st

structure JGame where
  aiResponses : List AIAnswer
  judgements : List Judgement
  judgeTheme : Option (List Char)
deriving DecidableEq

structure HttpOut where
  status : Nat
  message : List Char
deriving DecidableEq

/-- `Promise.all`: all fulfilled gives the list of values, otherwise the
join rejects with the first rejection. -/
def joinAll {ε α : Type} : List (Except ε α) → Except ε (List α)
  | [] => .ok []
  | .error e :: _ => .error e
  | .ok a :: rest => (joinAll rest).map (a :: ·)

/-- The `generateJudgements` handler: guards, the judgement fan-out/join,
the `{op:"add", path:"/judgements"}` patch (which sets the member,
replacing an existing value), and score aggregation.  The provider
interaction of the i-th task is `scripts[i]`; the store is the player
container.  Returns (response, game document afterwards, player store
afterwards). -/
def generateJudgements (gameId : List Char) (game? : Option JGame)
    (scripts : List RunnerScript) (store : PlayerStore) :
    HttpOut × Option JGame × PlayerStore :=
  if gameId.isEmpty then
    (⟨400, ("Missing gameId parameter").toList⟩, game?, store)
  else
    match game? with
    | none => (⟨404, ("Game not found").toList⟩, none, store)
    | some g =>
      if g.aiResponses.isEmpty then
        (⟨404, ("No AI responses found for judgement").toList⟩, some g, store)
      else
        match joinAll ((g.aiResponses.zip scripts).map
            (fun rs => (runJudgeOne gameId rs.1 rs.2).1)) with
        | .error e => (⟨500, e⟩, some g, store)
        | .ok js =>
          (⟨200, ("Successfully generated judgements and updated player scores").toList⟩,
           some { g with judgements := js },
           scoreAggregator g.judgeTheme js store)

/-! ### The answer generation fan-out (generateAnswers.ts) -/

structure PlayerIn where
  id : List Char
  gameId : List Char
  prompt : Option (List Char)
  screenName : Option (List Char)
deriving DecidableEq

structure JudgeQuestion where
  id : List Char
  content : List Char
deriving DecidableEq

/-- Outcome of one `chat.completions.create` call: a falsy/short response
(`!response || !response.choices`), a choices list (each choice reduced to
its `message?.content`), or a thrown error. -/
inductive CallOutcome where
  | nullResponse
  | response (choices : List (Option (List Char)))
  | thrown (msg : List Char)
deriving DecidableEq

structure AnswerRec where
  id : List Char
  gameId : List Char
  playerId : List Char
  playerName : List Char
  questionId : List Char
  question : List Char
  assistantPrompt : Option (List Char)
  answer : List Char
deriving DecidableEq

structure AnswerErrRec where
  playerId : List Char
  questionId : List Char
  error : List Char
  details : Option (List Char)
deriving DecidableEq

/-- The catch block's error classification. -/
def classifyErr (msg : List Char) : List Char :=
  if containsSub (("content_filter").toList) msg ||
     containsSub (("content filter").toList) msg ||
     containsSub (("moderation").toList) msg then
    ("Content filter triggered").toList
  else ("Error generating response").toList

/-- One `(player, question)` task of the fan-out.  The sanitized prompt and
question are composed and sent to the completion service, whose behaviour
the `CallOutcome` models; the stored `AIAnswer` uses the raw
`player.prompt` and `judgeQ.content` (the source does), so the sanitized
strings do not appear in the result. -/
def processPair (gameId : List Char) (p : PlayerIn) (q : JudgeQuestion)
    (oc : CallOutcome) : Sum AnswerRec AnswerErrRec :=
  match oc with
  | .thrown msg => .inr ⟨p.id, q.id, classifyErr msg, some msg⟩
  | .nullResponse => .inr ⟨p.id, q.id, ("Empty response from AI service").toList, none⟩
  | .response choices =>
    match choices with
    | [] => .inr ⟨p.id, q.id, ("Empty response from AI service").toList, none⟩
    | c0 :: _ =>
      .inl ⟨gameId ++ ("-").toList ++ p.id ++ ("-").toList ++ q.id,
            p.gameId, p.id, jsOrStr p.screenName (("Unknown Player").toList),
            q.id, q.content, p.prompt,
            (match c0 with | some s => s | none => [])⟩

/-- The fan-out: `players.flatMap(player => judgeQuestions.map(judgeQ => ...))`,
with the service's behaviour per pair given by `oracle`. -/
def generateAnswersResults (gameId : List Char) (players : List PlayerIn)
    (questions : List JudgeQuestion)
    (oracle : PlayerIn → JudgeQuestion → CallOutcome) :
    List (Sum AnswerRec AnswerErrRec) :=
  players.flatMap (fun p => questions.map (fun q => processPair gameId p q (oracle p q)))

/-- The `(playerId, questionId)` identity of a fan-out entry. -/
def keyOf : Sum AnswerRec AnswerErrRec → List Char × List Char
  | .inl a => (a.playerId, a.questionId)
  | .inr e => (e.playerId, e.questionId)

/-- `aiResponses.filter(response => !("error" in response))`. -/
def successfulOf (rs : List (Sum AnswerRec AnswerErrRec)) : List AnswerRec :=
  rs.filterMap (fun r => match r with | .inl a => some a | .inr _ => none)

/-- The `error` field of an entry, when it is an `AIAnswerError`. -/
def errOf : Sum AnswerRec AnswerErrRec → Option (List Char)
  | .inl _ => none
  | .inr e => some e.error

structure AGame where
  aiResponses : List AnswerRec
deriving DecidableEq

/-- The persistence step: `if (successfulResponses.length > 0)` patch the
game with `{op:"add", path:"/aiResponses", value: successfulResponses}`.
Cosmos DB partial-document-update `add` on an existing member replaces its
value (RFC 6902), so the member is set, not extended. -/
def applyAnswersPatch (g : AGame) (successful : List AnswerRec) : AGame :=
  if successful.isEmpty then g else { g with aiResponses := successful }

/-- A blank answer record (concrete instances for counterexamples). -/
def emptyAnswer : AIAnswer :=
  ⟨[], [], [], [], [], [], [], [], []⟩

/-- A named answer record (concrete instances for counterexamples). -/
def sampleAnswerRec (n : List Char) : AnswerRec :=
  ⟨n, [], [], [], [], [], none, []⟩

/-- The four per-player score lists extended by a run of judgements. -/
def appendScores (ps : PlayerScore) (fjs : List Judgement) : PlayerScore :=
  ⟨ps.totalScores ++ fjs.map (fun j => j.totalScore),
   ps.contextScores ++ fjs.map (fun j => j.contextScore),
   ps.technicalScores ++ fjs.map (fun j => j.technicalScore),
   ps.clarityScores ++ fjs.map (fun j => j.clarityScore)⟩

/-- Specification value of a `playerScores` entry after folding a run of
judgements into an optional existing entry. -/
def optAppScores (o : Option PlayerScore) (fjs : List Judgement) : Option PlayerScore :=
  match o with
  | some ps => some (appendScores ps fjs)
  | none => if fjs.isEmpty then none else some (appendScores ⟨[], [], [], []⟩ fjs)

/-! ### Well-formed judge responses (for the round-trip claim) -/

/-- Tail of the plain template from the justification label on. -/
def pTail5 (j : List Char) : List Char :=
  ("Justification: ").toList ++ j

/-- Tail of the plain template from the Final label on. -/
def pTail4 (d4 j : List Char) : List Char :=
  ("Final Score: ").toList ++ (d4 ++ ('\n' :: pTail5 j))

/-- Tail of the plain template from the Clarity label on. -/
def pTail3 (d3 d4 j : List Char) : List Char :=
  ("Clarity Score: ").toList ++ (d3 ++ ('\n' :: pTail4 d4 j))

/-- Tail of the plain template from the Technical label on. -/
def pTail2 (d2 d3 d4 j : List Char) : List Char :=
  ("Technical Score: ").toList ++ (d2 ++ ('\n' :: pTail3 d3 d4 j))

/-- A well-formed plain-form judge response: the four labelled scores in
`Label: value` form and a final justification line. -/
def plainTemplate (d1 d2 d3 d4 j : List Char) : List Char :=
  ("Context Score: ").toList ++ (d1 ++ ('\n' :: pTail2 d2 d3 d4 j))

/-- Tail of the emphasized template from the justification label on. -/
def fTail5 (j : List Char) : List Char :=
  ("**Justification:** ").toList ++ j

/-- Tail of the emphasized template from the Final label on. -/
def fTail4 (d4 j : List Char) : List Char :=
  ("**Final Score:** ").toList ++ (d4 ++ ('/' :: (("1000\n").toList ++ fTail5 j)))

/-- Tail of the emphasized template from the Clarity label on. -/
def fTail3 (d3 d4 j : List Char) : List Char :=
  ("**Clarity Score:** ").toList ++ (d3 ++ ('/' :: (("300\n").toList ++ fTail4 d4 j)))

/-- Tail of the emphasized template from the Technical label on. -/
def fTail2 (d2 d3 d4 j : List Char) : List Char :=
  ("**Technical Score:** ").toList ++ (d2 ++ ('/' :: (("400\n").toList ++ fTail3 d3 d4 j)))

/-- The same response with emphasized labels and `/denominator` suffixes
(300/400/300/1000 respectively). -/
def fancyTemplate (d1 d2 d3 d4 j : List Char) : List Char :=
  ("**Context Score:** ").toList ++ (d1 ++ ('/' :: (("300\n").toList ++ fTail2 d2 d3 d4 j)))

/-- A nonempty digit run (a score value as written in the text). -/
def digitsOkB (d : List Char) : Bool :=
  !d.isEmpty && d.all isDigitCh

/-- A justification line: nonempty, single-line, free of backticks and
asterisks, and already trimmed. -/
def justOkB (j : List Char) : Bool :=
  !j.isEmpty &&
  j.all (fun c => !(c == '\n') && !(c == '`') && !(c == '*')) &&
  j.head?.all (fun c => !isWsChar c) &&
  j.getLast?.all (fun c => !isWsChar c)

/-- The characters of the plain template's fixed text. -/
def pFixed : List Char :=
  ("Context Technical Clarity Final Justification Score: \n").toList

/-- The characters of the emphasized template's fixed text. -/
def fFixed : List Char :=
  ("*Context Technical Clarity Final Justification Score:/0134 \n").toList

/-! ### Lemmas about the sanitizer -/

theorem head?_dropWhile_false {p : Char → Bool} {l : List Char} {c : Char}
    (h : (l.dropWhile p).head? = some c) : p c = false := by
  induction l with
  | nil => simp [List.dropWhile] at h
  | cons a t ih =>
    rw [List.dropWhile_cons] at h
    by_cases hpa : p a = true
    · simp [hpa] at h; exact ih h
    · simp [hpa] at h
      simp [← h]; simpa using hpa

theorem mem_collapseGo {b : Bool} {l : List Char} {c : Char}
    (h : c ∈ collapseGo b l) : c ∈ l ∨ c = ' ' := by
  induction l generalizing b with
  | nil => cases b <;> simp [collapseGo] at h
  | cons a t ih =>
    by_cases hws : isWsChar a = true
    · cases b
      · simp only [collapseGo, hws, if_true, List.mem_cons] at h
        rcases h with h | h
        · exact Or.inr h
        · rcases ih h with h1 | h1
          · exact Or.inl (List.mem_cons_of_mem _ h1)
          · exact Or.inr h1
      · simp only [collapseGo, hws, if_true] at h
        rcases ih h with h1 | h1
        · exact Or.inl (List.mem_cons_of_mem _ h1)
        · exact Or.inr h1
    · have h2 : c ∈ a :: collapseGo false t := by
        cases b <;> simpa [collapseGo, hws] using h
      rcases List.mem_cons.mp h2 with rfl | h3
      · exact Or.inl (List.mem_cons_self _ _)
      · rcases ih h3 with h1 | h1
        · exact Or.inl (List.mem_cons_of_mem _ h1)
        · exact Or.inr h1

theorem head?_collapseGo_true {l : List Char} {c : Char}
    (h : (collapseGo true l).head? = some c) : isWsChar c = false := by
  induction l with
  | nil => simp [collapseGo] at h
  | cons a t ih =>
    by_cases hws : isWsChar a = true
    · simp only [collapseGo, hws, if_true] at h
      exact ih h
    · simp only [collapseGo, hws, if_false, Bool.false_eq_true, List.head?_cons,
        Option.some_inj] at h
      rw [← h]; simpa using hws

theorem chain'_collapseGo (b : Bool) (l : List Char) :
    List.Chain' (fun x y => isWsChar x = false ∨ isWsChar y = false)
      (collapseGo b l) := by
  induction l generalizing b with
  | nil => cases b <;> simp [collapseGo]
  | cons a t ih =>
    by_cases hws : isWsChar a = true
    · cases b
      · simp only [collapseGo, hws, if_true]
        rw [List.chain'_cons']
        refine ⟨fun y hy => Or.inr (head?_collapseGo_true hy), ih true⟩
      · simp only [collapseGo, hws, if_true]
        exact ih true
    · have hrw : collapseGo b (a :: t) = a :: collapseGo false t := by
        cases b <;> simp [collapseGo, hws]
      rw [hrw, List.chain'_cons']
      exact ⟨fun y _ => Or.inl (by simpa using hws), ih false⟩

theorem collapseGo_eq_nil {b : Bool} {l : List Char}
    (h : collapseGo b l = []) : ∀ x ∈ l, isWsChar x = true := by
  induction l generalizing b with
  | nil => simp
  | cons a t ih =>
    by_cases hws : isWsChar a = true
    · cases b
      · simp [collapseGo, hws] at h
      · simp only [collapseGo, hws, if_true] at h
        intro x hx
        rcases List.mem_cons.mp hx with rfl | hx
        · exact hws
        · exact ih h x hx
    · exfalso
      cases b <;> simp [collapseGo, hws] at h

theorem getLast?_cons_cases (a : Char) (t : List Char) :
    (a :: t).getLast? = some a ∧ t = [] ∨ (a :: t).getLast? = t.getLast? ∧ t ≠ [] := by
  rcases t with _ | ⟨x, xs⟩
  · exact Or.inl ⟨rfl, rfl⟩
  · exact Or.inr ⟨List.getLast?_cons_cons .., by simp⟩

theorem getLast?_collapseGo {z : Char} (hz : isWsChar z = false) :
    ∀ (t : List Char) (b : Bool) (c : Char),
      (collapseGo b (t ++ [z])).getLast? = some c → isWsChar c = false := by
  intro t
  induction t with
  | nil =>
    intro b c h
    rw [List.nil_append] at h
    have : collapseGo b [z] = [z] := by
      cases b <;> simp [collapseGo, hz]
    rw [this] at h
    simp at h
    rw [← h]; exact hz
  | cons a t ih =>
    intro b c h
    by_cases hws : isWsChar a = true
    · cases b
      · -- a space is emitted, followed by the collapse of the rest
        simp only [List.cons_append, collapseGo, hws, if_true, List.append_eq] at h
        rcases getLast?_cons_cases ' ' (collapseGo true (t ++ [z])) with ⟨h1, h2⟩ | ⟨h1, h2⟩
        · exfalso
          have hall := collapseGo_eq_nil h2
          have := hall z (by simp)
          rw [this] at hz; exact absurd hz (by simp)
        · rw [h1] at h
          exact ih true c h
      · simp only [List.cons_append, collapseGo, hws, if_true] at h
        exact ih true c h
    · have hrw : collapseGo b ((a :: t) ++ [z]) = a :: collapseGo false (t ++ [z]) := by
        cases b <;> simp [collapseGo, hws]
      rw [hrw] at h
      rcases getLast?_cons_cases a (collapseGo false (t ++ [z])) with ⟨h1, _⟩ | ⟨h1, _⟩
      · rw [h1] at h
        simp at h
        rw [← h]; simpa using hws
      · rw [h1] at h
        exact ih false c h

theorem mem_trimCh {l : List Char} {c : Char} (h : c ∈ trimCh l) : c ∈ l := by
  have h1 := (List.mem_reverse).mp h
  have h2 := (List.dropWhile_suffix isWsChar).subset h1
  have h3 := (List.mem_reverse).mp h2
  exact (List.dropWhile_suffix isWsChar).subset h3

theorem trimCh_head {l : List Char} {c : Char}
    (h : (trimCh l).head? = some c) : isWsChar c = false := by
  unfold trimCh at h
  rw [List.head?_reverse] at h
  obtain ⟨u, hu⟩ := List.dropWhile_suffix (l := (l.dropWhile isWsChar).reverse) isWsChar
  have h2 : (l.dropWhile isWsChar).reverse.getLast? = some c := by
    rw [← hu, List.getLast?_append, h]
    rfl
  rw [List.getLast?_reverse] at h2
  exact head?_dropWhile_false h2

theorem trimCh_last {l : List Char} {c : Char}
    (h : (trimCh l).getLast? = some c) : isWsChar c = false := by
  unfold trimCh at h
  rw [List.getLast?_reverse] at h
  exact head?_dropWhile_false h

/-- C6, counterexample: the claim says the sanitizer's output has no leading
or trailing whitespace, but trimming happens before disallowed characters are
replaced by spaces, so `sanitizeInput "a#"` is `"a "`, which ends in a space
(and symmetrically `"#a"` gives `" a"`). -/
theorem sanitize_edge_ws_counterexample :
    sanitizeInput (("a#").toList) = (("a ").toList) ∧
    edgeWsFree (sanitizeInput (("a#").toList)) = false ∧
    sanitizeInput (("#a").toList) = ((" a").toList) ∧
    edgeWsFree (sanitizeInput (("#a").toList)) = false := by
  decide

/-- C6, amended: for every input, the sanitizer's output contains no
character outside the allow-list (word characters, whitespace and the
punctuation set), and contains no run of two adjacent whitespace characters
anywhere; the no-leading/trailing-whitespace part holds whenever every input
character is already in the allow-list (a disallowed character at a trimmed
boundary becomes a single boundary space, as the counterexample shows). -/
theorem sanitize_output_charset_and_runs (l : List Char) :
    (∀ c ∈ sanitizeInput l, sanAllowed c = true) ∧
    List.Chain' (fun x y => isWsChar x = false ∨ isWsChar y = false)
      (sanitizeInput l) ∧
    ((∀ c ∈ l, sanAllowed c = true) → edgeWsFree (sanitizeInput l) = true) := by
  refine ⟨?_, chain'_collapseGo false _, ?_⟩
  · intro c hc
    rcases mem_collapseGo hc with h1 | rfl
    · unfold replaceDisallowed at h1
      rcases List.mem_map.mp h1 with ⟨d, _, hd⟩
      by_cases had : sanAllowed d = true
      · rw [← hd, if_pos had]; exact had
      · rw [← hd, if_neg had]; decide
    · decide
  · intro hall
    have hid : replaceDisallowed (trimCh l) = trimCh l := by
      unfold replaceDisallowed
      rw [List.map_congr_left (g := id), List.map_id]
      intro a ha
      simp [hall a (mem_trimCh ha)]
    unfold sanitizeInput collapseWs
    rw [hid]
    rcases htl : trimCh l with _ | ⟨a, t⟩
    · decide
    · have hha : isWsChar a = false := trimCh_head (by rw [htl]; rfl)
      have hrw : collapseGo false (a :: t) = a :: collapseGo false t := by
        simp [collapseGo, hha]
      rw [hrw]
      unfold edgeWsFree
      rw [Bool.and_eq_true]
      constructor
      · simp [hha]
      · rcases hgl : (a :: collapseGo false t).getLast? with _ | c
      -- a cons list always has a last element
        · simp at hgl
        · rcases List.eq_nil_or_concat t with rfl | ⟨t0, z, rfl⟩
          · have : collapseGo false ([] : List Char) = [] := rfl
            rw [this] at hgl
            simp at hgl
            simp [← hgl, hha]
          · have hz : isWsChar z = false := by
              apply trimCh_last (l := l)
              rw [htl, List.concat_eq_append, ← List.cons_append]
              exact List.getLast?_concat _
            rw [List.concat_eq_append] at hgl
            rcases getLast?_cons_cases a (collapseGo false (t0 ++ [z])) with ⟨h1, h2⟩ | ⟨h1, h2⟩
            · exfalso
              have hall2 := collapseGo_eq_nil h2
              have := hall2 z (by simp)
              rw [this] at hz; exact absurd hz (by simp)
            · rw [h1] at hgl
              have := getLast?_collapseGo hz t0 false c hgl
              simp [this]

/-- Witness for C6's amended theorem at a concrete input. -/
theorem sanitize_output_charset_and_runs_witness :
    (∀ c ∈ sanitizeInput (("He said   hi?!").toList), sanAllowed c = true) ∧
    List.Chain' (fun x y => isWsChar x = false ∨ isWsChar y = false)
      (sanitizeInput (("He said   hi?!").toList)) ∧
    edgeWsFree (sanitizeInput (("He said   hi?!").toList)) = true :=
  ⟨(sanitize_output_charset_and_runs _).1,
   (sanitize_output_charset_and_runs _).2.1,
   (sanitize_output_charset_and_runs _).2.2 (by decide)⟩

/-! ### The poll loop: claims C3 and C7 -/

/-- C3: on statuses `[in_progress, in_progress, completed]` the poll loop
makes exactly 3 retrieve calls and succeeds; on `[failed]` it fails on the
first poll, far below the 30-attempt budget; on 30 consecutive non-terminal
statuses it fails with the timeout fault after 30 polls. -/
theorem poll_loop_scenarios :
    waitForRunCompletion
        [.status .inProgress, .status .inProgress, .status .completed] =
      ⟨.completed, 3, []⟩ ∧
    waitForRunCompletion [.status (.failed none)] =
      ⟨.threw (("Run failed").toList), 1, []⟩ ∧
    1 < maxAttempts ∧
    waitForRunCompletion (List.replicate 30 (.status .inProgress)) =
      ⟨.timedOut (("Run timed out after 30 seconds").toList), 30, []⟩ := by
  decide

/-- C7: when a poll observes a rate-limit message, the loop waits for the
advertised duration (the captured number of seconds, or 60 when the message
does not match the `Try again in N seconds` pattern) and retries with the
`attempts` counter unchanged, so the wait consumes no attempt budget. -/
theorem rate_limit_retry_same_attempt (m : List Char) (rest : List PollResult)
    (a made : Nat) (rw : List Nat)
    (ha : a < maxAttempts) (hrl : containsSub rlNeedle m = true) :
    waitGo (.raised m :: rest) a made rw =
      waitGo rest a (made + 1) (rw ++ [rateWaitOf m]) ∧
    (∀ d, firstMatch tryAgainAt m = some d → rateWaitOf m = parseDigits d) ∧
    (firstMatch tryAgainAt m = none → rateWaitOf m = 60) := by
  refine ⟨?_, ?_, ?_⟩
  · conv =>
      lhs
      rw [waitGo]
    rw [if_neg (by omega), hrl]
    simp
  · intro d hd
    unfold rateWaitOf
    rw [hd]
  · intro h
    unfold rateWaitOf
    rw [h]

/-! ### Lemmas about the matching primitives -/

theorem char_eq_of_toNat {a b : Char} (h : a.toNat = b.toNat) : a = b :=
  Char.eq_of_val_eq (UInt32.toNat.inj h)

theorem isDigitCh_toNat {c : Char} (h : isDigitCh c = true) :
    48 ≤ c.toNat ∧ c.toNat ≤ 57 := by
  simpa [isDigitCh] using h

theorem lowerN_of_digit {c : Char} (h : isDigitCh c = true) : lowerN c = c.toNat := by
  have h2 := isDigitCh_toNat h
  unfold lowerN
  rw [if_neg]
  omega

theorem ciEq_false_of_digit {c : Char} (h : isDigitCh c = true) {p : Char}
    (hp : lowerN p < 48 ∨ 57 < lowerN p) : ciEq p c = false := by
  have h2 := isDigitCh_toNat h
  unfold ciEq
  rw [lowerN_of_digit h, beq_eq_false_iff_ne]
  omega

theorem ciEq_nonletter_eq {p : Char} (hp1 : lowerN p = p.toNat)
    (hp2 : p.toNat < 97 ∨ 122 < p.toNat) {c : Char} (h : ciEq p c = true) : c = p := by
  rw [ciEq, hp1, beq_iff_eq] at h
  unfold lowerN at h
  by_cases hc : 65 ≤ c.toNat ∧ c.toNat ≤ 90
  · rw [if_pos hc] at h
    omega
  · rw [if_neg hc] at h
    exact char_eq_of_toNat h.symm

theorem ciEq_false_of_ne_symbol {p : Char} (hp1 : lowerN p = p.toNat)
    (hp2 : p.toNat < 97 ∨ 122 < p.toNat) {c : Char} (hne : c ≠ p) : ciEq p c = false := by
  cases hci : ciEq p c
  · rfl
  · exact absurd (ciEq_nonletter_eq hp1 hp2 hci) hne

theorem matchLit_cons_none {p : Char} {ps : List Char} {c : Char} {cs : List Char}
    (h : ciEq p c = false) : matchLit (p :: ps) (c :: cs) = none := by
  simp [matchLit, h]

theorem firstMatch_cons_none {α : Type} {f : List Char → Option α} {c : Char}
    {s : List Char} (h : f (c :: s) = none) :
    firstMatch f (c :: s) = firstMatch f s := by
  simp [firstMatch, h]

theorem firstMatch_of_self {α : Type} {f : List Char → Option α} {s : List Char}
    {r : α} (h : f s = some r) : firstMatch f s = some r := by
  cases s <;> simp [firstMatch, h]

theorem firstMatch_none_pred {α : Type} (f : List Char → Option α) (P : Char → Bool)
    (hemp : f [] = none) (hf : ∀ c t, P c = true → f (c :: t) = none) :
    ∀ s, (∀ c ∈ s, P c = true) → firstMatch f s = none := by
  intro s
  induction s with
  | nil => intro _; simpa [firstMatch] using hemp
  | cons a t ih =>
    intro h
    rw [firstMatch_cons_none (hf a t (h a (by simp)))]
    exact ih (fun c hc => h c (by simp [hc]))

theorem firstMatch_skip_digits {α : Type} {f : List Char → Option α}
    (hf : ∀ c t, isDigitCh c = true → f (c :: t) = none) :
    ∀ (d : List Char), (∀ c ∈ d, isDigitCh c = true) →
      ∀ s, firstMatch f (d ++ s) = firstMatch f s := by
  intro d
  induction d with
  | nil => intro _ s; simp
  | cons a t ih =>
    intro hd s
    rw [List.cons_append, firstMatch_cons_none (hf a _ (hd a (by simp)))]
    exact ih (fun c hc => hd c (by simp [hc])) s

theorem wsStar_cons_not {c : Char} {t : List Char} (h : isWsChar c = false) :
    wsStar (c :: t) = c :: t := by
  simp [wsStar, List.dropWhile_cons, h]

theorem isWsChar_of_digit {c : Char} (h : isDigitCh c = true) : isWsChar c = false := by
  have h2 := isDigitCh_toNat h
  simp [isWsChar]
  omega

theorem takeWhile_digits {c : Char} (hc : isDigitCh c = false) (rest : List Char) :
    ∀ {d : List Char}, (∀ x ∈ d, isDigitCh x = true) →
      (d ++ c :: rest).takeWhile isDigitCh = d ∧
      (d ++ c :: rest).dropWhile isDigitCh = c :: rest := by
  intro d
  induction d with
  | nil => intro _; simp [List.takeWhile_cons, List.dropWhile_cons, hc]
  | cons a t ih =>
    intro hd
    have ha := hd a (by simp)
    have := ih (fun x hx => hd x (by simp [hx]))
    simp [List.takeWhile_cons, List.dropWhile_cons, ha, this.1, this.2]

theorem digitsPlus_exact {d : List Char} (hne : d.isEmpty = false)
    (hd : ∀ x ∈ d, isDigitCh x = true) {c : Char} (hc : isDigitCh c = false)
    (rest : List Char) : digitsPlus (d ++ c :: rest) = some (d, c :: rest) := by
  obtain ⟨h1, h2⟩ := takeWhile_digits hc rest hd
  unfold digitsPlus
  simp only [h1, h2, hne]
  rfl

theorem digits_capture {d : List Char} (hne : d.isEmpty = false)
    (hd : ∀ x ∈ d, isDigitCh x = true) {c : Char} (hc : isDigitCh c = false)
    (rest : List Char) :
    (digitsPlus (wsStar (d ++ c :: rest))).map (fun x => x.1) = some d := by
  rcases d with _ | ⟨a, t⟩
  · simp at hne
  · rw [List.cons_append, wsStar_cons_not (isWsChar_of_digit (hd a (by simp))),
      ← List.cons_append, digitsPlus_exact hne hd hc rest]
    rfl

theorem lazyCap1_all {look : List Char → Bool} :
    ∀ {j : List Char}, j ≠ [] → look [] = true →
      (∀ t, t <:+ j → t ≠ [] → look t = false) → lazyCap1 look j = some j := by
  intro j
  induction j with
  | nil => intro h; exact absurd rfl h
  | cons c rest ih =>
    intro _ h0 hsuf
    rcases rest with _ | ⟨x, xs⟩
    · simp [lazyCap1, h0]
    · have hr : look (x :: xs) = false := hsuf _ (List.suffix_cons c _) (by simp)
      have hrec := ih (by simp) h0
        (fun t ht hne => hsuf t (ht.trans (List.suffix_cons c _)) hne)
      show (if look (x :: xs) = true then some [c]
        else (lazyCap1 look (x :: xs)).map (c :: ·)) = some (c :: x :: xs)
      rw [hr, if_neg (by simp), hrec]
      rfl

theorem dropWhile_eq_self_of_head {p : Char → Bool} {l : List Char}
    (h : ∀ c, l.head? = some c → p c = false) : l.dropWhile p = l := by
  cases l with
  | nil => rfl
  | cons a t => simp [List.dropWhile_cons, h a rfl]

theorem trimCh_eq_self {j : List Char}
    (hh : ∀ c, j.head? = some c → isWsChar c = false)
    (hl : ∀ c, j.getLast? = some c → isWsChar c = false) : trimCh j = j := by
  unfold trimCh
  rw [dropWhile_eq_self_of_head hh,
    dropWhile_eq_self_of_head (fun c hc => hl c (by rwa [List.head?_reverse] at hc))]
  exact List.reverse_reverse j

theorem digitsOkB_unpack {d : List Char} (h : digitsOkB d = true) :
    d.isEmpty = false ∧ ∀ x ∈ d, isDigitCh x = true := by
  unfold digitsOkB at h
  rw [Bool.and_eq_true, List.all_eq_true] at h
  exact ⟨by simpa using h.1, h.2⟩

theorem justOkB_unpack {j : List Char} (h : justOkB j = true) :
    j ≠ [] ∧ (∀ c ∈ j, c ≠ '\n' ∧ c ≠ '`' ∧ c ≠ '*') ∧
    (∀ c, j.head? = some c → isWsChar c = false) ∧
    (∀ c, j.getLast? = some c → isWsChar c = false) := by
  unfold justOkB at h
  rw [Bool.and_eq_true, Bool.and_eq_true, Bool.and_eq_true] at h
  obtain ⟨⟨⟨h1, h2⟩, h3⟩, h4⟩ := h
  refine ⟨by simpa using h1, ?_, ?_, ?_⟩
  · intro c hc
    have := List.all_eq_true.mp h2 c hc
    simp only [Bool.and_eq_true, Bool.not_eq_true'] at this
    exact ⟨by simpa using this.1.1, by simpa using this.1.2, by simpa using this.2⟩
  · intro c hc
    rw [hc] at h3
    simpa using h3
  · intro c hc
    rw [hc] at h4
    simpa using h4

/-! ### Per-pattern head-failure facts and template character sets -/

theorem scoreAt1_cons_none (label : List Char) {c : Char} (t : List Char)
    (h : ciEq '*' c = false) : scoreAt1 label (c :: t) = none := by
  simp [scoreAt1, matchLit_cons_none h]

theorem scoreAt2_cons_none (label : List Char) {c : Char} (t : List Char)
    (h : ciEq '*' c = false) : scoreAt2 label (c :: t) = none := by
  simp [scoreAt2, matchLit_cons_none h]

theorem scoreAt3_cons_none (p : Char) (ps : List Char) {c : Char} (t : List Char)
    (h : ciEq p c = false) : scoreAt3 (p :: ps) (c :: t) = none := by
  simp [scoreAt3, matchLit_cons_none h]

theorem justAt1_cons_none {c : Char} (t : List Char)
    (h : ciEq '*' c = false) : justAt1 (c :: t) = none := by
  simp [justAt1, matchLit_cons_none h]

theorem justAt2_cons_none {c : Char} (t : List Char)
    (h : ciEq '*' c = false) : justAt2 (c :: t) = none := by
  simp [justAt2, matchLit_cons_none h]

theorem justAt3_cons_none {c : Char} (t : List Char)
    (h : ciEq 'J' c = false) : justAt3 (c :: t) = none := by
  have e : matchLit (("Justification:").toList) (c :: t) =
      if ciEq 'J' c then matchLit (("ustification:").toList) t else none := rfl
  unfold justAt3
  rw [e, h]
  simp

theorem cbAt_cons_none {c : Char} (t : List Char)
    (h : ('`' == c) = false) : cbAt (c :: t) = none := by
  have e : matchLitCS cbFence (c :: t) =
      if '`' == c then matchLitCS (("``").toList) t else none := rfl
  unfold cbAt
  rw [e, h]
  simp

/-- Pointwise property of every character of the plain template. -/
theorem plainTemplate_forall {d1 d2 d3 d4 j : List Char} (P : Char → Bool)
    (hfix : ∀ x ∈ pFixed, P x = true)
    (hd1 : ∀ x ∈ d1, P x = true) (hd2 : ∀ x ∈ d2, P x = true)
    (hd3 : ∀ x ∈ d3, P x = true) (hd4 : ∀ x ∈ d4, P x = true)
    (hj : ∀ x ∈ j, P x = true) :
    ∀ c ∈ plainTemplate d1 d2 d3 d4 j, P c = true := by
  unfold plainTemplate pTail2 pTail3 pTail4 pTail5
  have hNL : P '\n' = true := hfix '\n' (by decide)
  exact List.forall_mem_append.mpr ⟨fun x hx => hfix x ((by decide :
      ∀ y ∈ (("Context Score: ").toList), y ∈ pFixed) x hx),
    List.forall_mem_append.mpr ⟨hd1,
    List.forall_mem_cons.mpr ⟨hNL,
    List.forall_mem_append.mpr ⟨fun x hx => hfix x ((by decide :
      ∀ y ∈ (("Technical Score: ").toList), y ∈ pFixed) x hx),
    List.forall_mem_append.mpr ⟨hd2,
    List.forall_mem_cons.mpr ⟨hNL,
    List.forall_mem_append.mpr ⟨fun x hx => hfix x ((by decide :
      ∀ y ∈ (("Clarity Score: ").toList), y ∈ pFixed) x hx),
    List.forall_mem_append.mpr ⟨hd3,
    List.forall_mem_cons.mpr ⟨hNL,
    List.forall_mem_append.mpr ⟨fun x hx => hfix x ((by decide :
      ∀ y ∈ (("Final Score: ").toList), y ∈ pFixed) x hx),
    List.forall_mem_append.mpr ⟨hd4,
    List.forall_mem_cons.mpr ⟨hNL,
    List.forall_mem_append.mpr ⟨fun x hx => hfix x ((by decide :
      ∀ y ∈ (("Justification: ").toList), y ∈ pFixed) x hx),
    hj⟩⟩⟩⟩⟩⟩⟩⟩⟩⟩⟩⟩⟩

/-- Pointwise property of every character of the emphasized template. -/
theorem fancyTemplate_forall {d1 d2 d3 d4 j : List Char} (P : Char → Bool)
    (hfix : ∀ x ∈ fFixed, P x = true)
    (hd1 : ∀ x ∈ d1, P x = true) (hd2 : ∀ x ∈ d2, P x = true)
    (hd3 : ∀ x ∈ d3, P x = true) (hd4 : ∀ x ∈ d4, P x = true)
    (hj : ∀ x ∈ j, P x = true) :
    ∀ c ∈ fancyTemplate d1 d2 d3 d4 j, P c = true := by
  unfold fancyTemplate fTail2 fTail3 fTail4 fTail5
  have hSL : P '/' = true := hfix '/' (by decide)
  exact List.forall_mem_append.mpr ⟨fun x hx => hfix x ((by decide :
      ∀ y ∈ (("**Context Score:** ").toList), y ∈ fFixed) x hx),
    List.forall_mem_append.mpr ⟨hd1,
    List.forall_mem_cons.mpr ⟨hSL,
    List.forall_mem_append.mpr ⟨fun x hx => hfix x ((by decide :
      ∀ y ∈ (("300\n").toList), y ∈ fFixed) x hx),
    List.forall_mem_append.mpr ⟨fun x hx => hfix x ((by decide :
      ∀ y ∈ (("**Technical Score:** ").toList), y ∈ fFixed) x hx),
    List.forall_mem_append.mpr ⟨hd2,
    List.forall_mem_cons.mpr ⟨hSL,
    List.forall_mem_append.mpr ⟨fun x hx => hfix x ((by decide :
      ∀ y ∈ (("400\n").toList), y ∈ fFixed) x hx),
    List.forall_mem_append.mpr ⟨fun x hx => hfix x ((by decide :
      ∀ y ∈ (("**Clarity Score:** ").toList), y ∈ fFixed) x hx),
    List.forall_mem_append.mpr ⟨hd3,
    List.forall_mem_cons.mpr ⟨hSL,
    List.forall_mem_append.mpr ⟨fun x hx => hfix x ((by decide :
      ∀ y ∈ (("300\n").toList), y ∈ fFixed) x hx),
    List.forall_mem_append.mpr ⟨fun x hx => hfix x ((by decide :
      ∀ y ∈ (("**Final Score:** ").toList), y ∈ fFixed) x hx),
    List.forall_mem_append.mpr ⟨hd4,
    List.forall_mem_cons.mpr ⟨hSL,
    List.forall_mem_append.mpr ⟨fun x hx => hfix x ((by decide :
      ∀ y ∈ (("1000\n").toList), y ∈ fFixed) x hx),
    List.forall_mem_append.mpr ⟨fun x hx => hfix x ((by decide :
      ∀ y ∈ (("**Justification:** ").toList), y ∈ fFixed) x hx),
    hj⟩⟩⟩⟩⟩⟩⟩⟩⟩⟩⟩⟩⟩⟩⟩⟩⟩

theorem digit_no_star {c : Char} (h : isDigitCh c = true) : (!ciEq '*' c) = true := by
  simp [ciEq_false_of_digit h (p := '*') (by decide)]

theorem digit_no_bt {c : Char} (h : isDigitCh c = true) : (!('`' == c)) = true := by
  have h2 := isDigitCh_toNat h
  have : ('`' == c) = false := by
    rw [beq_eq_false_iff_ne]
    intro he
    rw [← he] at h2
    simp at h2
  simp [this]

/-- The plain template contains no asterisk. -/
theorem plainTemplate_no_star {d1 d2 d3 d4 j : List Char}
    (h1 : digitsOkB d1 = true) (h2 : digitsOkB d2 = true)
    (h3 : digitsOkB d3 = true) (h4 : digitsOkB d4 = true)
    (hj : justOkB j = true) :
    ∀ c ∈ plainTemplate d1 d2 d3 d4 j, (!ciEq '*' c) = true :=
  plainTemplate_forall _ (by decide)
    (fun x hx => digit_no_star ((digitsOkB_unpack h1).2 x hx))
    (fun x hx => digit_no_star ((digitsOkB_unpack h2).2 x hx))
    (fun x hx => digit_no_star ((digitsOkB_unpack h3).2 x hx))
    (fun x hx => digit_no_star ((digitsOkB_unpack h4).2 x hx))
    (fun x hx => by
      simp [ciEq_false_of_ne_symbol (p := '*') (by decide) (by decide)
        ((justOkB_unpack hj).2.1 x hx).2.2])

/-- The plain template contains no backtick. -/
theorem plainTemplate_no_bt {d1 d2 d3 d4 j : List Char}
    (h1 : digitsOkB d1 = true) (h2 : digitsOkB d2 = true)
    (h3 : digitsOkB d3 = true) (h4 : digitsOkB d4 = true)
    (hj : justOkB j = true) :
    ∀ c ∈ plainTemplate d1 d2 d3 d4 j, (!('`' == c)) = true :=
  plainTemplate_forall _ (by decide)
    (fun x hx => digit_no_bt ((digitsOkB_unpack h1).2 x hx))
    (fun x hx => digit_no_bt ((digitsOkB_unpack h2).2 x hx))
    (fun x hx => digit_no_bt ((digitsOkB_unpack h3).2 x hx))
    (fun x hx => digit_no_bt ((digitsOkB_unpack h4).2 x hx))
    (fun x hx => by
      have := ((justOkB_unpack hj).2.1 x hx).2.1
      simp [beq_eq_false_iff_ne.mpr (fun he => this he.symm)])

/-- The emphasized template contains no backtick. -/
theorem fancyTemplate_no_bt {d1 d2 d3 d4 j : List Char}
    (h1 : digitsOkB d1 = true) (h2 : digitsOkB d2 = true)
    (h3 : digitsOkB d3 = true) (h4 : digitsOkB d4 = true)
    (hj : justOkB j = true) :
    ∀ c ∈ fancyTemplate d1 d2 d3 d4 j, (!('`' == c)) = true :=
  fancyTemplate_forall _ (by decide)
    (fun x hx => digit_no_bt ((digitsOkB_unpack h1).2 x hx))
    (fun x hx => digit_no_bt ((digitsOkB_unpack h2).2 x hx))
    (fun x hx => digit_no_bt ((digitsOkB_unpack h3).2 x hx))
    (fun x hx => digit_no_bt ((digitsOkB_unpack h4).2 x hx))
    (fun x hx => by
      have := ((justOkB_unpack hj).2.1 x hx).2.1
      simp [beq_eq_false_iff_ne.mpr (fun he => this he.symm)])

theorem stripCodeBlock_eq_self {s : List Char} (h : firstMatch cbAt s = none) :
    stripCodeBlock s = s := by
  unfold stripCodeBlock
  rw [h]

/-! ### The response parser round-trip (claim C5) -/

/-- C5: a well-formed response with all four labelled scores in plain
`Label: value` form and a justification line parses to exactly those four
integers (the numbers denoted by the digit runs) and the justification; the
same scores with emphasized labels and `/300`, `/400`, `/300`, `/1000`
suffixes parse to an identical result. -/
theorem parser_roundtrip (d1 d2 d3 d4 j : List Char)
    (h1 : digitsOkB d1 = true) (h2 : digitsOkB d2 = true)
    (h3 : digitsOkB d3 = true) (h4 : digitsOkB d4 = true)
    (hj : justOkB j = true) :
    parseFormattedResponse (plainTemplate d1 d2 d3 d4 j) =
      .ok ⟨parseDigits d1, parseDigits d2, parseDigits d3, parseDigits d4, j⟩ ∧
    parseFormattedResponse (fancyTemplate d1 d2 d3 d4 j) =
      .ok ⟨parseDigits d1, parseDigits d2, parseDigits d3, parseDigits d4, j⟩ := by
  obtain ⟨h1e, h1d⟩ := digitsOkB_unpack h1
  obtain ⟨h2e, h2d⟩ := digitsOkB_unpack h2
  obtain ⟨h3e, h3d⟩ := digitsOkB_unpack h3
  obtain ⟨h4e, h4d⟩ := digitsOkB_unpack h4
  obtain ⟨hjne, hjchar, hjh, hjl⟩ := justOkB_unpack hj
  -- the justification is consumed whole by either lazy capture
  have hws : wsStar j = j := dropWhile_eq_self_of_head hjh
  have htr : trimCh j = j := trimCh_eq_self hjh hjl
  have hsufhead : ∀ t, t <:+ j → t ≠ [] →
      ∃ c u, t = c :: u ∧ c ≠ '\n' := by
    intro t ht htne
    rcases t with _ | ⟨c, u⟩
    · exact absurd rfl htne
    · exact ⟨c, u, rfl, (hjchar c (ht.subset (by simp))).1⟩
  have hlpj : lazyCap1 lookPlain j = some j := by
    refine lazyCap1_all hjne (by decide) ?_
    intro t ht htne
    obtain ⟨c, u, rfl, hcnl⟩ := hsufhead t ht htne
    simp [lookPlain, beq_eq_false_iff_ne.mpr hcnl]
  have hlej : lazyCap1 lookEmph j = some j := by
    refine lazyCap1_all hjne (by decide) ?_
    intro t ht htne
    obtain ⟨c, u, rfl, hcnl⟩ := hsufhead t ht htne
    have e : matchLitCS (("\n**").toList) (c :: u) =
        if '\n' == c then matchLitCS (("**").toList) u else none := rfl
    have hb1 : ('\n' == c) = false := beq_eq_false_iff_ne.mpr (fun he => hcnl he.symm)
    have hm : matchLitCS (("\n**").toList) (c :: u) = none := by
      rw [e, hb1]
      simp
    have hb2 : (c == '\n') = false := beq_eq_false_iff_ne.mpr hcnl
    unfold lookEmph
    rw [hm]
    show (false || (c == '\n' && u.isEmpty)) = false
    rw [hb2]
    rfl
  -- digit-head failure for the plain score patterns and patterns with a star
  have hfT : ∀ c t, isDigitCh c = true →
      scoreAt3 (("Technical").toList) (c :: t) = none :=
    fun c t hc => scoreAt3_cons_none 'T' (("echnical").toList) t
      (ciEq_false_of_digit hc (by decide))
  have hfC : ∀ c t, isDigitCh c = true →
      scoreAt3 (("Clarity").toList) (c :: t) = none :=
    fun c t hc => scoreAt3_cons_none 'C' (("larity").toList) t
      (ciEq_false_of_digit hc (by decide))
  have hfF : ∀ c t, isDigitCh c = true →
      scoreAt3 (("Final").toList) (c :: t) = none :=
    fun c t hc => scoreAt3_cons_none 'F' (("inal").toList) t
      (ciEq_false_of_digit hc (by decide))
  have hfJ3 : ∀ c t, isDigitCh c = true → justAt3 (c :: t) = none :=
    fun c t hc => justAt3_cons_none t (ciEq_false_of_digit hc (by decide))
  have hfS1 : ∀ (lbl : List Char) c t, isDigitCh c = true →
      scoreAt1 lbl (c :: t) = none :=
    fun lbl c t hc => scoreAt1_cons_none lbl t (ciEq_false_of_digit hc (by decide))
  have hfJ1 : ∀ c t, isDigitCh c = true → justAt1 (c :: t) = none :=
    fun c t hc => justAt1_cons_none t (ciEq_false_of_digit hc (by decide))
  constructor
  · -- plain template
    have pstar := plainTemplate_no_star h1 h2 h3 h4 hj
    have pbt := plainTemplate_no_bt h1 h2 h3 h4 hj
    have hcb : firstMatch cbAt (plainTemplate d1 d2 d3 d4 j) = none :=
      firstMatch_none_pred cbAt (fun c => !('`' == c)) rfl
        (fun c t hP => cbAt_cons_none t (by simpa using hP)) _ pbt
    have hstrip : stripHdr2 (stripHdr1 (stripCodeBlock (plainTemplate d1 d2 d3 d4 j))) =
        plainTemplate d1 d2 d3 d4 j := by
      rw [stripCodeBlock_eq_self hcb]
      rfl
    have hs1 : ∀ lbl, firstMatch (scoreAt1 lbl) (plainTemplate d1 d2 d3 d4 j) = none :=
      fun lbl => firstMatch_none_pred _ (fun c => !ciEq '*' c) rfl
        (fun c t hP => scoreAt1_cons_none lbl t (by simpa using hP)) _ pstar
    have hs2 : ∀ lbl, firstMatch (scoreAt2 lbl) (plainTemplate d1 d2 d3 d4 j) = none :=
      fun lbl => firstMatch_none_pred _ (fun c => !ciEq '*' c) rfl
        (fun c t hP => scoreAt2_cons_none lbl t (by simpa using hP)) _ pstar
    have hj1n : firstMatch justAt1 (plainTemplate d1 d2 d3 d4 j) = none :=
      firstMatch_none_pred _ (fun c => !ciEq '*' c) rfl
        (fun c t hP => justAt1_cons_none t (by simpa using hP)) _ pstar
    have hj2n : firstMatch justAt2 (plainTemplate d1 d2 d3 d4 j) = none :=
      firstMatch_none_pred _ (fun c => !ciEq '*' c) rfl
        (fun c t hP => justAt2_cons_none t (by simpa using hP)) _ pstar
    have hctx : matchScore (("Context").toList) (plainTemplate d1 d2 d3 d4 j) = some d1 := by
      simp only [matchScore, hs1, hs2]
      apply firstMatch_of_self
      have e : scoreAt3 (("Context").toList) (plainTemplate d1 d2 d3 d4 j) =
          (digitsPlus (wsStar (d1 ++ ('\n' :: pTail2 d2 d3 d4 j)))).map (fun x => x.1) := rfl
      rw [e]
      exact digits_capture h1e h1d (by decide) _
    have htech : matchScore (("Technical").toList) (plainTemplate d1 d2 d3 d4 j) = some d2 := by
      simp only [matchScore, hs1, hs2]
      show firstMatch (scoreAt3 (("Technical").toList))
        ((("Context Score: ").toList) ++ (d1 ++ ('\n' :: pTail2 d2 d3 d4 j))) = some d2
      have sk1 : ∀ X : List Char,
          firstMatch (scoreAt3 (("Technical").toList)) ((("Context Score: ").toList) ++ X) =
          firstMatch (scoreAt3 (("Technical").toList)) X := fun X => rfl
      have nl : ∀ X : List Char,
          firstMatch (scoreAt3 (("Technical").toList)) ('\n' :: X) =
          firstMatch (scoreAt3 (("Technical").toList)) X :=
        fun X => firstMatch_cons_none rfl
      rw [sk1, firstMatch_skip_digits hfT d1 h1d, nl]
      unfold pTail2
      apply firstMatch_of_self
      have e : scoreAt3 (("Technical").toList)
          ((("Technical Score: ").toList) ++ (d2 ++ ('\n' :: pTail3 d3 d4 j))) =
          (digitsPlus (wsStar (d2 ++ ('\n' :: pTail3 d3 d4 j)))).map (fun x => x.1) := rfl
      rw [e]
      exact digits_capture h2e h2d (by decide) _
    have hclar : matchScore (("Clarity").toList) (plainTemplate d1 d2 d3 d4 j) = some d3 := by
      simp only [matchScore, hs1, hs2]
      show firstMatch (scoreAt3 (("Clarity").toList))
        ((("Context Score: ").toList) ++ (d1 ++ ('\n' :: pTail2 d2 d3 d4 j))) = some d3
      have sk1 : ∀ X : List Char,
          firstMatch (scoreAt3 (("Clarity").toList)) ((("Context Score: ").toList) ++ X) =
          firstMatch (scoreAt3 (("Clarity").toList)) X := fun X => rfl
      have sk2 : ∀ X : List Char,
          firstMatch (scoreAt3 (("Clarity").toList)) ((("Technical Score: ").toList) ++ X) =
          firstMatch (scoreAt3 (("Clarity").toList)) X := fun X => rfl
      have nl : ∀ X : List Char,
          firstMatch (scoreAt3 (("Clarity").toList)) ('\n' :: X) =
          firstMatch (scoreAt3 (("Clarity").toList)) X :=
        fun X => firstMatch_cons_none rfl
      rw [sk1, firstMatch_skip_digits hfC d1 h1d, nl]
      unfold pTail2
      rw [sk2, firstMatch_skip_digits hfC d2 h2d, nl]
      unfold pTail3
      apply firstMatch_of_self
      have e : scoreAt3 (("Clarity").toList)
          ((("Clarity Score: ").toList) ++ (d3 ++ ('\n' :: pTail4 d4 j))) =
          (digitsPlus (wsStar (d3 ++ ('\n' :: pTail4 d4 j)))).map (fun x => x.1) := rfl
      rw [e]
      exact digits_capture h3e h3d (by decide) _
    have hfin : matchScore (("Final").toList) (plainTemplate d1 d2 d3 d4 j) = some d4 := by
      simp only [matchScore, hs1, hs2]
      show firstMatch (scoreAt3 (("Final").toList))
        ((("Context Score: ").toList) ++ (d1 ++ ('\n' :: pTail2 d2 d3 d4 j))) = some d4
      have sk1 : ∀ X : List Char,
          firstMatch (scoreAt3 (("Final").toList)) ((("Context Score: ").toList) ++ X) =
          firstMatch (scoreAt3 (("Final").toList)) X := fun X => rfl
      have sk2 : ∀ X : List Char,
          firstMatch (scoreAt3 (("Final").toList)) ((("Technical Score: ").toList) ++ X) =
          firstMatch (scoreAt3 (("Final").toList)) X := fun X => rfl
      have sk3 : ∀ X : List Char,
          firstMatch (scoreAt3 (("Final").toList)) ((("Clarity Score: ").toList) ++ X) =
          firstMatch (scoreAt3 (("Final").toList)) X := fun X => rfl
      have nl : ∀ X : List Char,
          firstMatch (scoreAt3 (("Final").toList)) ('\n' :: X) =
          firstMatch (scoreAt3 (("Final").toList)) X :=
        fun X => firstMatch_cons_none rfl
      rw [sk1, firstMatch_skip_digits hfF d1 h1d, nl]
      unfold pTail2
      rw [sk2, firstMatch_skip_digits hfF d2 h2d, nl]
      unfold pTail3
      rw [sk3, firstMatch_skip_digits hfF d3 h3d, nl]
      unfold pTail4
      apply firstMatch_of_self
      have e : scoreAt3 (("Final").toList)
          ((("Final Score: ").toList) ++ (d4 ++ ('\n' :: pTail5 j))) =
          (digitsPlus (wsStar (d4 ++ ('\n' :: pTail5 j)))).map (fun x => x.1) := rfl
      rw [e]
      exact digits_capture h4e h4d (by decide) _
    have hjust : matchJust (plainTemplate d1 d2 d3 d4 j) = some j := by
      simp only [matchJust, hj1n, hj2n]
      show firstMatch justAt3
        ((("Context Score: ").toList) ++ (d1 ++ ('\n' :: pTail2 d2 d3 d4 j))) = some j
      have sk1 : ∀ X : List Char,
          firstMatch justAt3 ((("Context Score: ").toList) ++ X) =
          firstMatch justAt3 X := fun X => rfl
      have sk2 : ∀ X : List Char,
          firstMatch justAt3 ((("Technical Score: ").toList) ++ X) =
          firstMatch justAt3 X := fun X => rfl
      have sk3 : ∀ X : List Char,
          firstMatch justAt3 ((("Clarity Score: ").toList) ++ X) =
          firstMatch justAt3 X := fun X => rfl
      have sk4 : ∀ X : List Char,
          firstMatch justAt3 ((("Final Score: ").toList) ++ X) =
          firstMatch justAt3 X := fun X => rfl
      have nl : ∀ X : List Char,
          firstMatch justAt3 ('\n' :: X) = firstMatch justAt3 X :=
        fun X => firstMatch_cons_none rfl
      rw [sk1, firstMatch_skip_digits hfJ3 d1 h1d, nl]
      unfold pTail2
      rw [sk2, firstMatch_skip_digits hfJ3 d2 h2d, nl]
      unfold pTail3
      rw [sk3, firstMatch_skip_digits hfJ3 d3 h3d, nl]
      unfold pTail4
      rw [sk4, firstMatch_skip_digits hfJ3 d4 h4d, nl]
      unfold pTail5
      apply firstMatch_of_self
      have e : justAt3 ((("Justification: ").toList) ++ j) =
          lazyCap1 lookPlain (wsStar j) := rfl
      rw [e, hws, hlpj]
    simp only [parseFormattedResponse, hstrip, hctx, htech, hclar, hfin, hjust, htr]
  · -- emphasized template
    have fbt := fancyTemplate_no_bt h1 h2 h3 h4 hj
    have hcb : firstMatch cbAt (fancyTemplate d1 d2 d3 d4 j) = none :=
      firstMatch_none_pred cbAt (fun c => !('`' == c)) rfl
        (fun c t hP => cbAt_cons_none t (by simpa using hP)) _ fbt
    have hstrip : stripHdr2 (stripHdr1 (stripCodeBlock (fancyTemplate d1 d2 d3 d4 j))) =
        fancyTemplate d1 d2 d3 d4 j := by
      rw [stripCodeBlock_eq_self hcb]
      rfl
    have hctx : matchScore (("Context").toList) (fancyTemplate d1 d2 d3 d4 j) = some d1 := by
      have h : firstMatch (scoreAt1 (("Context").toList)) (fancyTemplate d1 d2 d3 d4 j) =
          some d1 := by
        apply firstMatch_of_self
        have e : scoreAt1 (("Context").toList) (fancyTemplate d1 d2 d3 d4 j) =
            (digitsPlus (wsStar (d1 ++ ('/' :: ((("300\n").toList) ++
              fTail2 d2 d3 d4 j))))).map (fun x => x.1) := rfl
        rw [e]
        exact digits_capture h1e h1d (by decide) _
      simp only [matchScore, h]
    have htech : matchScore (("Technical").toList) (fancyTemplate d1 d2 d3 d4 j) = some d2 := by
      have h : firstMatch (scoreAt1 (("Technical").toList)) (fancyTemplate d1 d2 d3 d4 j) =
          some d2 := by
        show firstMatch (scoreAt1 (("Technical").toList))
          ((("**Context Score:** ").toList) ++ (d1 ++ ('/' ::
            ((("300\n").toList) ++ fTail2 d2 d3 d4 j)))) = some d2
        have sk1 : ∀ X : List Char,
            firstMatch (scoreAt1 (("Technical").toList)) ((("**Context Score:** ").toList) ++ X) =
            firstMatch (scoreAt1 (("Technical").toList)) X := fun X => rfl
        have skn : ∀ X : List Char,
            firstMatch (scoreAt1 (("Technical").toList)) ((("300\n").toList) ++ X) =
            firstMatch (scoreAt1 (("Technical").toList)) X := fun X => rfl
        have sl : ∀ X : List Char,
            firstMatch (scoreAt1 (("Technical").toList)) ('/' :: X) =
            firstMatch (scoreAt1 (("Technical").toList)) X :=
          fun X => firstMatch_cons_none rfl
        rw [sk1, firstMatch_skip_digits (hfS1 _) d1 h1d, sl, skn]
        unfold fTail2
        apply firstMatch_of_self
        have e : scoreAt1 (("Technical").toList)
            ((("**Technical Score:** ").toList) ++ (d2 ++ ('/' ::
              ((("400\n").toList) ++ fTail3 d3 d4 j)))) =
            (digitsPlus (wsStar (d2 ++ ('/' :: ((("400\n").toList) ++
              fTail3 d3 d4 j))))).map (fun x => x.1) := rfl
        rw [e]
        exact digits_capture h2e h2d (by decide) _
      simp only [matchScore, h]
    have hclar : matchScore (("Clarity").toList) (fancyTemplate d1 d2 d3 d4 j) = some d3 := by
      have h : firstMatch (scoreAt1 (("Clarity").toList)) (fancyTemplate d1 d2 d3 d4 j) =
          some d3 := by
        show firstMatch (scoreAt1 (("Clarity").toList))
          ((("**Context Score:** ").toList) ++ (d1 ++ ('/' ::
            ((("300\n").toList) ++ fTail2 d2 d3 d4 j)))) = some d3
        have sk1 : ∀ X : List Char,
            firstMatch (scoreAt1 (("Clarity").toList)) ((("**Context Score:** ").toList) ++ X) =
            firstMatch (scoreAt1 (("Clarity").toList)) X := fun X => rfl
        have sk2 : ∀ X : List Char,
            firstMatch (scoreAt1 (("Clarity").toList)) ((("**Technical Score:** ").toList) ++ X) =
            firstMatch (scoreAt1 (("Clarity").toList)) X := fun X => rfl
        have skn3 : ∀ X : List Char,
            firstMatch (scoreAt1 (("Clarity").toList)) ((("300\n").toList) ++ X) =
            firstMatch (scoreAt1 (("Clarity").toList)) X := fun X => rfl
        have skn4 : ∀ X : List Char,
            firstMatch (scoreAt1 (("Clarity").toList)) ((("400\n").toList) ++ X) =
            firstMatch (scoreAt1 (("Clarity").toList)) X := fun X => rfl
        have sl : ∀ X : List Char,
            firstMatch (scoreAt1 (("Clarity").toList)) ('/' :: X) =
            firstMatch (scoreAt1 (("Clarity").toList)) X :=
          fun X => firstMatch_cons_none rfl
        rw [sk1, firstMatch_skip_digits (hfS1 _) d1 h1d, sl, skn3]
        unfold fTail2
        rw [sk2, firstMatch_skip_digits (hfS1 _) d2 h2d, sl, skn4]
        unfold fTail3
        apply firstMatch_of_self
        have e : scoreAt1 (("Clarity").toList)
            ((("**Clarity Score:** ").toList) ++ (d3 ++ ('/' ::
              ((("300\n").toList) ++ fTail4 d4 j)))) =
            (digitsPlus (wsStar (d3 ++ ('/' :: ((("300\n").toList) ++
              fTail4 d4 j))))).map (fun x => x.1) := rfl
        rw [e]
        exact digits_capture h3e h3d (by decide) _
      simp only [matchScore, h]
    have hfin : matchScore (("Final").toList) (fancyTemplate d1 d2 d3 d4 j) = some d4 := by
      have h : firstMatch (scoreAt1 (("Final").toList)) (fancyTemplate d1 d2 d3 d4 j) =
          some d4 := by
        show firstMatch (scoreAt1 (("Final").toList))
          ((("**Context Score:** ").toList) ++ (d1 ++ ('/' ::
            ((("300\n").toList) ++ fTail2 d2 d3 d4 j)))) = some d4
        have sk1 : ∀ X : List Char,
            firstMatch (scoreAt1 (("Final").toList)) ((("**Context Score:** ").toList) ++ X) =
            firstMatch (scoreAt1 (("Final").toList)) X := fun X => rfl
        have sk2 : ∀ X : List Char,
            firstMatch (scoreAt1 (("Final").toList)) ((("**Technical Score:** ").toList) ++ X) =
            firstMatch (scoreAt1 (("Final").toList)) X := fun X => rfl
        have sk3 : ∀ X : List Char,
            firstMatch (scoreAt1 (("Final").toList)) ((("**Clarity Score:** ").toList) ++ X) =
            firstMatch (scoreAt1 (("Final").toList)) X := fun X => rfl
        have skn3 : ∀ X : List Char,
            firstMatch (scoreAt1 (("Final").toList)) ((("300\n").toList) ++ X) =
            firstMatch (scoreAt1 (("Final").toList)) X := fun X => rfl
        have skn4 : ∀ X : List Char,
            firstMatch (scoreAt1 (("Final").toList)) ((("400\n").toList) ++ X) =
            firstMatch (scoreAt1 (("Final").toList)) X := fun X => rfl
        have sl : ∀ X : List Char,
            firstMatch (scoreAt1 (("Final").toList)) ('/' :: X) =
            firstMatch (scoreAt1 (("Final").toList)) X :=
          fun X => firstMatch_cons_none rfl
        rw [sk1, firstMatch_skip_digits (hfS1 _) d1 h1d, sl, skn3]
        unfold fTail2
        rw [sk2, firstMatch_skip_digits (hfS1 _) d2 h2d, sl, skn4]
        unfold fTail3
        rw [sk3, firstMatch_skip_digits (hfS1 _) d3 h3d, sl, skn3]
        unfold fTail4
        apply firstMatch_of_self
        have e : scoreAt1 (("Final").toList)
            ((("**Final Score:** ").toList) ++ (d4 ++ ('/' ::
              ((("1000\n").toList) ++ fTail5 j)))) =
            (digitsPlus (wsStar (d4 ++ ('/' :: ((("1000\n").toList) ++
              fTail5 j))))).map (fun x => x.1) := rfl
        rw [e]
        exact digits_capture h4e h4d (by decide) _
      simp only [matchScore, h]
    have hjust : matchJust (fancyTemplate d1 d2 d3 d4 j) = some j := by
      have h : firstMatch justAt1 (fancyTemplate d1 d2 d3 d4 j) = some j := by
        show firstMatch justAt1
          ((("**Context Score:** ").toList) ++ (d1 ++ ('/' ::
            ((("300\n").toList) ++ fTail2 d2 d3 d4 j)))) = some j
        have sk1 : ∀ X : List Char,
            firstMatch justAt1 ((("**Context Score:** ").toList) ++ X) =
            firstMatch justAt1 X := fun X => rfl
        have sk2 : ∀ X : List Char,
            firstMatch justAt1 ((("**Technical Score:** ").toList) ++ X) =
            firstMatch justAt1 X := fun X => rfl
        have sk3 : ∀ X : List Char,
            firstMatch justAt1 ((("**Clarity Score:** ").toList) ++ X) =
            firstMatch justAt1 X := fun X => rfl
        have sk4 : ∀ X : List Char,
            firstMatch justAt1 ((("**Final Score:** ").toList) ++ X) =
            firstMatch justAt1 X := fun X => rfl
        have skn3 : ∀ X : List Char,
            firstMatch justAt1 ((("300\n").toList) ++ X) =
            firstMatch justAt1 X := fun X => rfl
        have skn4 : ∀ X : List Char,
            firstMatch justAt1 ((("400\n").toList) ++ X) =
            firstMatch justAt1 X := fun X => rfl
        have skn10 : ∀ X : List Char,
            firstMatch justAt1 ((("1000\n").toList) ++ X) =
            firstMatch justAt1 X := fun X => rfl
        have sl : ∀ X : List Char,
            firstMatch justAt1 ('/' :: X) = firstMatch justAt1 X :=
          fun X => firstMatch_cons_none rfl
        rw [sk1, firstMatch_skip_digits hfJ1 d1 h1d, sl, skn3]
        unfold fTail2
        rw [sk2, firstMatch_skip_digits hfJ1 d2 h2d, sl, skn4]
        unfold fTail3
        rw [sk3, firstMatch_skip_digits hfJ1 d3 h3d, sl, skn3]
        unfold fTail4
        rw [sk4, firstMatch_skip_digits hfJ1 d4 h4d, sl, skn10]
        unfold fTail5
        apply firstMatch_of_self
        have e : justAt1 ((("**Justification:** ").toList) ++ j) =
            lazyCap1 lookEmph (wsStar j) := rfl
        rw [e, hws, hlej]
      simp only [matchJust, h]
    simp only [parseFormattedResponse, hstrip, hctx, htech, hclar, hfin, hjust, htr]

/-- Witness for C5 at concrete scores 250/300/180/730. -/
theorem parser_roundtrip_witness :
    parseFormattedResponse (plainTemplate (("250").toList) (("300").toList)
        (("180").toList) (("730").toList) (("Good answer overall.").toList)) =
      .ok ⟨parseDigits (("250").toList), parseDigits (("300").toList),
           parseDigits (("180").toList), parseDigits (("730").toList),
           (("Good answer overall.").toList)⟩ ∧
    parseFormattedResponse (fancyTemplate (("250").toList) (("300").toList)
        (("180").toList) (("730").toList) (("Good answer overall.").toList)) =
      .ok ⟨parseDigits (("250").toList), parseDigits (("300").toList),
           parseDigits (("180").toList), parseDigits (("730").toList),
           (("Good answer overall.").toList)⟩ :=
  parser_roundtrip _ _ _ _ _ (by decide) (by decide) (by decide) (by decide) (by decide)

/-- Witness for C7 at a concrete rate-limit message advertising 5 seconds. -/
theorem rate_limit_retry_same_attempt_witness :
    waitGo
        (.raised (("Rate limit is exceeded. Try again in 5 seconds.").toList)
          :: [PollResult.status .completed]) 2 2 [] =
      waitGo [PollResult.status .completed] 2 3
        ([] ++ [rateWaitOf (("Rate limit is exceeded. Try again in 5 seconds.").toList)]) ∧
    rateWaitOf (("Rate limit is exceeded. Try again in 5 seconds.").toList) =
      parseDigits (("5").toList) :=
  ⟨(rate_limit_retry_same_attempt _ _ 2 2 [] (by decide) (by decide)).1,
   (rate_limit_retry_same_attempt
      (m := (("Rate limit is exceeded. Try again in 5 seconds.").toList))
      [] 2 2 [] (by decide) (by decide)).2.1 _ (by decide)⟩

/-! ### The judge conversation runner's cleanup (claim C4) -/

/-- C4, counterexample: when conversation creation itself faults, the
`finally` block has no `thread?.id` to delete, so zero deletion attempts are
made on that invocation — not exactly one. -/
theorem cleanup_counterexample :
    (runJudgeOne [] emptyAnswer
      ⟨.error (("boom").toList), .ok (), .ok [], [], .ok [], true⟩).2 = 0 ∧
    (runJudgeOne [] emptyAnswer
      ⟨.error (("boom").toList), .ok (), .ok [], [], .ok [], true⟩).1 =
      .error (("boom").toList) := by
  decide

/-- C4, amended: whenever conversation creation succeeds, exactly one
deletion attempt is made, regardless of where (or whether) a later fault
occurs; the cleanup call's own outcome never changes the task's primary
outcome; and when creation itself faults, no deletion is attempted. -/
theorem cleanup_once_when_created (gameId : List Char) (resp : AIAnswer)
    (s : RunnerScript) (tid : List Char) (h : s.createThread = .ok tid) :
    (runJudgeOne gameId resp s).2 = 1 ∧
    (∀ b, (runJudgeOne gameId resp { s with deleteOk := b }).1 =
      (runJudgeOne gameId resp s).1) ∧
    (∀ (s2 : RunnerScript) (e : List Char), s2.createThread = .error e →
      (runJudgeOne gameId resp s2).2 = 0) := by
  refine ⟨?_, ?_, ?_⟩
  · unfold runJudgeOne
    rw [h]
  · intro b
    unfold runJudgeOne
    rw [show ({ s with deleteOk := b } : RunnerScript).createThread =
      s.createThread from rfl, h]
  · intro s2 e he
    unfold runJudgeOne
    rw [he]

/-- Witness for C4's amended theorem at a concrete script. -/
theorem cleanup_once_when_created_witness :
    (runJudgeOne [] emptyAnswer
      ⟨.ok (("t1").toList), .ok (), .ok (("r1").toList), [], .ok [], true⟩).2 = 1 ∧
    (runJudgeOne [] emptyAnswer
      { (⟨.ok (("t1").toList), .ok (), .ok (("r1").toList), [], .ok [], true⟩ :
        RunnerScript) with deleteOk := false }).1 =
    (runJudgeOne [] emptyAnswer
      ⟨.ok (("t1").toList), .ok (), .ok (("r1").toList), [], .ok [], true⟩).1 :=
  ⟨(cleanup_once_when_created [] emptyAnswer _ (("t1").toList) rfl).1,
   (cleanup_once_when_created [] emptyAnswer _ (("t1").toList) rfl).2.1 false⟩

/-! ### The judgement fan-out join (claim C8) -/

theorem joinAll_first_error {ε α : Type} (e : ε) (post : List (Except ε α)) :
    ∀ (pre : List (Except ε α)), (∀ x ∈ pre, ∃ a, x = .ok a) →
      joinAll (pre ++ (.error e :: post)) = .error e := by
  intro pre
  induction pre with
  | nil => intro _; rfl
  | cons x rest ih =>
    intro h
    obtain ⟨a, rfl⟩ := h x (by simp)
    rw [List.cons_append]
    show (joinAll (rest ++ (.error e :: post))).map (a :: ·) = .error e
    rw [ih (fun y hy => h y (by simp [hy]))]
    rfl

/-- C8: if any single judgement task's outcome is a fault, the whole
judgement run aborts: the join propagates the first rejection, the game
document keeps its previous judgements, no player score is written, and the
caller receives the 500 outcome carrying that fault's message. -/
theorem judgement_fanout_aborts_on_fault (gameId : List Char) (g : JGame)
    (scripts : List RunnerScript) (store : PlayerStore) (e : List Char)
    (pre post : List (Except (List Char) Judgement))
    (hgid : gameId.isEmpty = false)
    (hresp : g.aiResponses.isEmpty = false)
    (hsplit : (g.aiResponses.zip scripts).map
        (fun rs => (runJudgeOne gameId rs.1 rs.2).1) = pre ++ (.error e :: post))
    (hpre : ∀ x ∈ pre, ∃ a, x = .ok a) :
    generateJudgements gameId (some g) scripts store = (⟨500, e⟩, some g, store) := by
  simp only [generateJudgements, hgid, Bool.false_eq_true, if_false, hresp,
    hsplit, joinAll_first_error e post pre hpre]

/-- Witness for C8: one answer whose conversation creation faults. -/
theorem judgement_fanout_aborts_on_fault_witness :
    generateJudgements (("g1").toList)
      (some ⟨[emptyAnswer], [], none⟩)
      [⟨.error (("boom").toList), .ok (), .ok [], [], .ok [], true⟩] [] =
      (⟨500, ("boom").toList⟩, some ⟨[emptyAnswer], [], none⟩, []) :=
  judgement_fanout_aborts_on_fault (("g1").toList) _ _ [] (("boom").toList)
    [] [] (by decide) (by decide) (by decide) (by simp)

/-! ### The aiResponses persistence step (claim C9) -/

/-- C9, counterexample: the `{op:"add", path:"/aiResponses"}` patch sets the
member (Cosmos/RFC 6902 "add" replaces an existing member), so with a
nonempty previous list the result is not previous-plus-appended. -/
theorem aiResponses_patch_counterexample :
    (applyAnswersPatch ⟨[sampleAnswerRec (("a1").toList)]⟩
      [sampleAnswerRec (("a2").toList)]).aiResponses ≠
      [sampleAnswerRec (("a1").toList)] ++ [sampleAnswerRec (("a2").toList)] ∧
    (applyAnswersPatch ⟨[sampleAnswerRec (("a1").toList)]⟩
      [sampleAnswerRec (("a2").toList)]).aiResponses =
      [sampleAnswerRec (("a2").toList)] := by
  decide

/-- C9, amended: after a run with at least one successful pair, the game's
`aiResponses` equals the successful subset of the new results, replacing any
previous contents; it equals previous-plus-appended exactly when the
previous contents were empty. -/
theorem aiResponses_patch_replaces (g : AGame) (s : List AnswerRec) (hs : s ≠ []) :
    (applyAnswersPatch g s).aiResponses = s ∧
    (g.aiResponses = [] → (applyAnswersPatch g s).aiResponses = g.aiResponses ++ s) := by
  have he : s.isEmpty = false := by
    rcases s with _ | ⟨a, t⟩
    · exact absurd rfl hs
    · rfl
  unfold applyAnswersPatch
  rw [he]
  exact ⟨rfl, fun h => by simp [h]⟩

/-- Witness for C9's amended theorem. -/
theorem aiResponses_patch_replaces_witness :
    (applyAnswersPatch ⟨[sampleAnswerRec (("a1").toList)]⟩
      [sampleAnswerRec (("a2").toList)]).aiResponses =
      [sampleAnswerRec (("a2").toList)] :=
  (aiResponses_patch_replaces _ _ (by decide)).1

/-! ### The score aggregator (claim C1) -/

theorem storeSet_cons (pid : List Char) (v : PlayerDoc)
    (kv : List Char × PlayerDoc) (rest : PlayerStore) :
    storeSet pid v (kv :: rest) =
    (if kv.1 == pid then (kv.1, v) else kv) :: storeSet pid v rest := rfl

theorem storeSet_lookup_self {pid : List Char} {v : PlayerDoc} :
    ∀ st : PlayerStore, (st.lookup pid).isSome = true →
      (storeSet pid v st).lookup pid = some v := by
  intro st
  induction st with
  | nil => intro h; simp at h
  | cons kv rest ih =>
    rcases kv with ⟨k, b⟩
    intro h
    rw [storeSet_cons]
    by_cases hk : (k == pid) = true
    · rw [if_pos hk, List.lookup_cons]
      have h2 : (pid == k) = true := by
        rw [beq_iff_eq]
        exact (eq_of_beq hk).symm
      simp [h2]
    · have h2 : (pid == k) = false := by
        rw [beq_eq_false_iff_ne]
        intro he
        exact hk (by rw [he, beq_iff_eq])
      rw [if_neg hk, List.lookup_cons]
      simp only [h2]
      apply ih
      rw [List.lookup_cons, h2] at h
      exact h

theorem storeSet_lookup_ne {pid k : List Char} (hne : k ≠ pid) (v : PlayerDoc) :
    ∀ st : PlayerStore, (storeSet k v st).lookup pid = st.lookup pid := by
  intro st
  induction st with
  | nil => rfl
  | cons kv rest ih =>
    rcases kv with ⟨k2, b⟩
    rw [storeSet_cons]
    by_cases hk : (k2 == k) = true
    · have hne2 : (pid == k2) = false := by
        rw [beq_eq_false_iff_ne]
        intro he
        exact hne (by rw [← (eq_of_beq hk), ← he])
      rw [if_pos hk]
      rw [List.lookup_cons, List.lookup_cons]
      simp only [hne2]
      exact ih
    · rw [if_neg hk]
      rw [List.lookup_cons, List.lookup_cons]
      cases hpk : (pid == k2)
      · exact ih
      · rfl

theorem updatePlayers_nil (theme : Option (List Char)) (st : PlayerStore) :
    updatePlayers theme [] st = st := rfl

theorem updatePlayers_cons (theme : Option (List Char))
    (kv : List Char × PlayerScore) (entries : List (List Char × PlayerScore))
    (st : PlayerStore) :
    updatePlayers theme (kv :: entries) st =
    updatePlayers theme entries (updateOnePlayer theme st kv) := rfl

theorem updateOnePlayer_lookup_ne {pid : List Char} (theme : Option (List Char))
    (st : PlayerStore) (kv : List Char × PlayerScore) (h : kv.1 ≠ pid) :
    (updateOnePlayer theme st kv).lookup pid = st.lookup pid := by
  unfold updateOnePlayer
  cases st.lookup kv.1 with
  | none => rfl
  | some pd => exact storeSet_lookup_ne h _ st

theorem updatePlayers_skip {pid : List Char} (theme : Option (List Char)) :
    ∀ (entries : List (List Char × PlayerScore)) (st : PlayerStore),
      (∀ kv ∈ entries, kv.1 ≠ pid) →
      (updatePlayers theme entries st).lookup pid = st.lookup pid := by
  intro entries
  induction entries with
  | nil => intro st _; rfl
  | cons kv rest ih =>
    intro st h
    rw [updatePlayers_cons]
    rw [ih _ (fun kv2 h2 => h kv2 (by simp [h2]))]
    exact updateOnePlayer_lookup_ne theme st kv (h kv (by simp))

theorem updatePlayers_hit {pid : List Char} {ps : PlayerScore} {pd : PlayerDoc}
    (theme : Option (List Char)) :
    ∀ (entries : List (List Char × PlayerScore)) (st : PlayerStore),
      entries.lookup pid = some ps →
      (entries.map Prod.fst).Nodup →
      st.lookup pid = some pd →
      (updatePlayers theme entries st).lookup pid =
        some { pd with
          totalScore := some (combinedTotal ps.totalScores),
          themeName := some (jsOrStr theme (("Unknown Theme").toList)) } := by
  intro entries
  induction entries with
  | nil => intro st h; simp at h
  | cons kv rest ih =>
    rcases kv with ⟨k, v⟩
    intro st hl hnd hst
    rw [updatePlayers_cons]
    by_cases hk : (pid == k) = true
    · have hk2 : k = pid := (eq_of_beq hk).symm
      have hv : v = ps := by
        rw [List.lookup_cons] at hl
        simpa [hk] using hl
      have hrest : ∀ kv2 ∈ rest, kv2.1 ≠ pid := by
        intro kv2 hkv2 he
        have hmem : k ∈ rest.map Prod.fst := by
          rw [hk2, ← he]
          exact List.mem_map_of_mem _ hkv2
        exact (List.nodup_cons.mp hnd).1 hmem
      rw [updatePlayers_skip theme rest _ hrest]
      unfold updateOnePlayer
      simp only [hk2, hst, hv]
      exact storeSet_lookup_self st (by simp [hst])
    · have hk2 : k ≠ pid := fun he => hk (by rw [he, beq_iff_eq])
      have hkf : (pid == k) = false := by simpa using hk
      have hl2 : rest.lookup pid = some ps := by
        rw [List.lookup_cons] at hl
        simpa [hkf] using hl
      have hst2 : (updateOnePlayer theme st (k, v)).lookup pid = some pd := by
        rw [updateOnePlayer_lookup_ne theme st (k, v) hk2]
        exact hst
      exact ih _ hl2 (List.nodup_cons.mp hnd).2 hst2

theorem addScore_cons (pid : List Char) (j : Judgement)
    (kv : List Char × PlayerScore) (rest : List (List Char × PlayerScore)) :
    addScore pid j (kv :: rest) =
    (if kv.1 == pid then
      (kv.1, ⟨kv.2.totalScores ++ [j.totalScore], kv.2.contextScores ++ [j.contextScore],
              kv.2.technicalScores ++ [j.technicalScore], kv.2.clarityScores ++ [j.clarityScore]⟩)
        :: rest
     else kv :: addScore pid j rest) := by
  rcases kv with ⟨k, v⟩
  by_cases hk : (k == pid) = true <;> simp [addScore, hk]

theorem addScore_lookup_self (pid : List Char) (j : Judgement) :
    ∀ acc, (addScore pid j acc).lookup pid =
      some (match acc.lookup pid with
        | some ps =>
          ⟨ps.totalScores ++ [j.totalScore], ps.contextScores ++ [j.contextScore],
           ps.technicalScores ++ [j.technicalScore], ps.clarityScores ++ [j.clarityScore]⟩
        | none =>
          ⟨[j.totalScore], [j.contextScore], [j.technicalScore], [j.clarityScore]⟩) := by
  intro acc
  induction acc with
  | nil => simp [addScore, List.lookup_cons]
  | cons kv rest ih =>
    rcases kv with ⟨k, v⟩
    rw [addScore_cons]
    by_cases hk : (k == pid) = true
    · have hk2 : (pid == k) = true := by rw [beq_iff_eq]; exact (eq_of_beq hk).symm
      rw [if_pos hk, List.lookup_cons, List.lookup_cons]
      simp [hk2]
    · have hk2 : (pid == k) = false := by
        rw [beq_eq_false_iff_ne]
        intro he
        exact hk (by rw [he, beq_iff_eq])
      rw [if_neg hk, List.lookup_cons, List.lookup_cons]
      simp only [hk2]
      exact ih

theorem addScore_lookup_ne {pid k : List Char} (hne : k ≠ pid) (j : Judgement) :
    ∀ acc, (addScore k j acc).lookup pid = acc.lookup pid := by
  intro acc
  induction acc with
  | nil =>
    have h2 : (pid == k) = false := by
      rw [beq_eq_false_iff_ne]
      exact fun he => hne he.symm
    simp [addScore, List.lookup_cons, h2]
  | cons kv rest ih =>
    rcases kv with ⟨k2, v⟩
    rw [addScore_cons]
    by_cases hk : (k2 == k) = true
    · have h2 : (pid == k2) = false := by
        rw [beq_eq_false_iff_ne]
        intro he
        exact hne (by rw [← (eq_of_beq hk), ← he])
      rw [if_pos hk, List.lookup_cons, List.lookup_cons]
      simp only [h2]
    · rw [if_neg hk, List.lookup_cons, List.lookup_cons]
      cases hpk : (pid == k2)
      · exact ih
      · rfl

theorem addScore_keys (pid : List Char) (j : Judgement) :
    ∀ acc, ((addScore pid j acc).map Prod.fst) = acc.map Prod.fst ∨
      (((addScore pid j acc).map Prod.fst) = acc.map Prod.fst ++ [pid] ∧
        pid ∉ acc.map Prod.fst) := by
  intro acc
  induction acc with
  | nil => exact Or.inr ⟨rfl, by simp⟩
  | cons kv rest ih =>
    rcases kv with ⟨k, v⟩
    rw [addScore_cons]
    by_cases hk : (k == pid) = true
    · rw [if_pos hk]
      exact Or.inl (by simp)
    · rw [if_neg hk]
      have hk2 : pid ≠ k := fun he => hk (by rw [he, beq_iff_eq])
      rcases ih with h | ⟨h, hnm⟩
      · exact Or.inl (by simp [h])
      · refine Or.inr ⟨by simp [h], ?_⟩
        simp only [List.map_cons, List.mem_cons]
        rintro (he | hm)
        · exact hk2 he
        · exact hnm hm

theorem addScore_keys_nodup {pid : List Char} {j : Judgement}
    {acc : List (List Char × PlayerScore)}
    (h : (acc.map Prod.fst).Nodup) : ((addScore pid j acc).map Prod.fst).Nodup := by
  rcases addScore_keys pid j acc with he | ⟨he, hnm⟩
  · rw [he]; exact h
  · rw [he]
    refine h.append (by simp) ?_
    intro a ha hmem
    rw [List.mem_singleton] at hmem
    exact hnm (hmem ▸ ha)

theorem buildPlayerScores_keys_nodup (js : List Judgement) :
    ((buildPlayerScores js).map Prod.fst).Nodup := by
  unfold buildPlayerScores
  have : ∀ (l : List Judgement) (acc : List (List Char × PlayerScore)),
      (acc.map Prod.fst).Nodup →
      ((l.foldl (fun acc j => addScore j.playerId j acc) acc).map Prod.fst).Nodup := by
    intro l
    induction l with
    | nil => intro acc h; exact h
    | cons jd rest ih =>
      intro acc h
      exact ih _ (addScore_keys_nodup h)
  exact this js [] (by simp)

theorem appendScores_nil (ps : PlayerScore) : appendScores ps [] = ps := by
  rcases ps with ⟨a, b, c, d⟩
  simp [appendScores]

theorem appendScores_cons (ps : PlayerScore) (jd : Judgement) (fjs : List Judgement) :
    appendScores ps (jd :: fjs) =
    appendScores ⟨ps.totalScores ++ [jd.totalScore], ps.contextScores ++ [jd.contextScore],
      ps.technicalScores ++ [jd.technicalScore], ps.clarityScores ++ [jd.clarityScore]⟩ fjs := by
  simp [appendScores]

theorem buildPS_fold (pid : List Char) :
    ∀ (js : List Judgement) (acc : List (List Char × PlayerScore)),
      (js.foldl (fun acc j => addScore j.playerId j acc) acc).lookup pid =
        optAppScores (acc.lookup pid) (js.filter (fun j => j.playerId == pid)) := by
  intro js
  induction js with
  | nil =>
    intro acc
    simp only [List.foldl_nil, List.filter_nil]
    cases h : acc.lookup pid with
    | none => rfl
    | some ps => simp [optAppScores, appendScores_nil]
  | cons jd rest ih =>
    intro acc
    rw [List.foldl_cons, ih]
    by_cases hk : (jd.playerId == pid) = true
    · rw [List.filter_cons_of_pos (by simpa using hk)]
      have hself := addScore_lookup_self pid jd acc
      have hk2 : jd.playerId = pid := eq_of_beq hk
      rw [hk2, hself]
      cases hacc : acc.lookup pid with
      | none => simp [hacc, optAppScores, appendScores_cons]
      | some ps => simp [hacc, optAppScores, appendScores_cons]
    · rw [List.filter_cons_of_neg (by simpa using hk)]
      have hk2 : jd.playerId ≠ pid := fun he => hk (by rw [he, beq_iff_eq])
      rw [addScore_lookup_ne hk2 jd acc]

/-- C1: for every judgement run, the Score Aggregator writes to each player
present in the store (and occurring among the judgements) a `totalScore`
equal to the sum of that player's per-judgement `totalScore` values,
together with the game's theme name. -/
theorem score_aggregator_totals (theme : Option (List Char)) (js : List Judgement)
    (st : PlayerStore) (pid : List Char) (pd : PlayerDoc) (t : List Char)
    (hpid : pid ∈ js.map (fun j => j.playerId))
    (hst : st.lookup pid = some pd)
    (ht : theme = some t) (htne : t ≠ []) :
    (scoreAggregator theme js st).lookup pid =
      some { pd with
        totalScore := some (combinedTotal
          ((js.filter (fun j => j.playerId == pid)).map (fun j => j.totalScore))),
        themeName := some t } := by
  have hfne : (js.filter (fun j => j.playerId == pid)) ≠ [] := by
    rw [List.mem_map] at hpid
    obtain ⟨jd, hjd, hjdid⟩ := hpid
    intro hnil
    have hmem : jd ∈ js.filter (fun j => j.playerId == pid) :=
      List.mem_filter.mpr ⟨hjd, by simp [hjdid]⟩
    rw [hnil] at hmem
    simp at hmem
  have hents : (buildPlayerScores js).lookup pid =
      some (appendScores ⟨[], [], [], []⟩ (js.filter (fun j => j.playerId == pid))) := by
    unfold buildPlayerScores
    rw [buildPS_fold]
    simp only [List.lookup_nil, optAppScores]
    rw [if_neg (by simpa using hfne)]
  have htheme : jsOrStr theme (("Unknown Theme").toList) = t := by
    rw [ht]
    show (if t.isEmpty = true then ("Unknown Theme").toList else t) = t
    rw [if_neg (by simpa using htne)]
  unfold scoreAggregator
  rw [updatePlayers_hit theme (buildPlayerScores js) st hents
    (buildPlayerScores_keys_nodup js) hst, htheme]
  simp [appendScores]

/-- Witness for C1: three judgements scoring 250, 300, 180 combine to 730. -/
theorem score_aggregator_totals_witness :
    (scoreAggregator (some (("Space").toList))
      [⟨[], [], [], ("p1").toList, [], [], 0, 0, 0, 250, [], []⟩,
       ⟨[], [], [], ("p1").toList, [], [], 0, 0, 0, 300, [], []⟩,
       ⟨[], [], [], ("p1").toList, [], [], 0, 0, 0, 180, [], []⟩]
      [((("p1").toList), ⟨("Alice").toList, none, none⟩)]).lookup (("p1").toList) =
      some ⟨("Alice").toList, some 730, some (("Space").toList)⟩ := by
  have h := score_aggregator_totals (some (("Space").toList))
    [⟨[], [], [], ("p1").toList, [], [], 0, 0, 0, 250, [], []⟩,
     ⟨[], [], [], ("p1").toList, [], [], 0, 0, 0, 300, [], []⟩,
     ⟨[], [], [], ("p1").toList, [], [], 0, 0, 0, 180, [], []⟩]
    [((("p1").toList), ⟨("Alice").toList, none, none⟩)]
    (("p1").toList) ⟨("Alice").toList, none, none⟩ (("Space").toList)
    (by decide) (by decide) rfl (by decide)
  rw [h]
  decide

/-! ### The answer generation fan-out (claim C2) -/

theorem keyOf_processPair (gameId : List Char) (p : PlayerIn) (q : JudgeQuestion)
    (oc : CallOutcome) : keyOf (processPair gameId p q oc) = (p.id, q.id) := by
  cases oc with
  | thrown m => rfl
  | nullResponse => rfl
  | response cs => cases cs <;> rfl

theorem generateAnswersResults_length (gameId : List Char) (players : List PlayerIn)
    (questions : List JudgeQuestion) (oracle : PlayerIn → JudgeQuestion → CallOutcome) :
    (generateAnswersResults gameId players questions oracle).length =
      players.length * questions.length := by
  unfold generateAnswersResults
  induction players with
  | nil => simp
  | cons p ps ih =>
    rw [List.flatMap_cons, List.length_append, ih]
    simp [Nat.succ_mul, Nat.add_comm]

theorem generateAnswersResults_keys (gameId : List Char) (players : List PlayerIn)
    (questions : List JudgeQuestion) (oracle : PlayerIn → JudgeQuestion → CallOutcome) :
    (generateAnswersResults gameId players questions oracle).map keyOf =
      players.flatMap (fun p => questions.map (fun q => (p.id, q.id))) := by
  unfold generateAnswersResults
  induction players with
  | nil => simp
  | cons p ps ih =>
    rw [List.flatMap_cons, List.flatMap_cons, List.map_append, ih, List.map_map]
    congr 1
    exact List.map_congr_left (fun q _ => keyOf_processPair gameId p q (oracle p q))

theorem nodup_pair_flatMap {A B : Type} (f : A → List Char) (g : B → List Char)
    (qs : List B) (hq : (qs.map g).Nodup) :
    ∀ ps : List A, (ps.map f).Nodup →
      (ps.flatMap (fun p => qs.map (fun q => (f p, g q)))).Nodup := by
  intro ps
  induction ps with
  | nil => intro _; simp
  | cons p rest ih =>
    intro hp
    rw [List.flatMap_cons]
    refine List.Nodup.append ?_ (ih (List.nodup_cons.mp hp).2) ?_
    · have : qs.map (fun q => (f p, g q)) = (qs.map g).map (fun y => (f p, y)) := by
        rw [List.map_map]
        rfl
      rw [this]
      exact hq.map (fun a b hab => by
        have := congrArg Prod.snd hab
        simpa using this)
    · intro x hx hx2
      rw [List.mem_map] at hx
      obtain ⟨q, _, rfl⟩ := hx
      rw [List.mem_flatMap] at hx2
      obtain ⟨p2, hp2, hx2⟩ := hx2
      rw [List.mem_map] at hx2
      obtain ⟨q2, _, he⟩ := hx2
      have hfst : f p2 = f p := congrArg Prod.fst he
      have : f p ∈ (rest.map f) := by
        rw [← hfst]
        exact List.mem_map_of_mem f hp2
      exact (List.nodup_cons.mp hp).1 this

theorem flatMap_uniform_getElem? {A B : Type} (f : A → List B) (m : Nat)
    (hf : ∀ a, (f a).length = m) :
    ∀ (l : List A) (i jj : Nat), jj < m →
      (l.flatMap f)[i * m + jj]? = l[i]?.bind (fun a => (f a)[jj]?) := by
  intro l
  induction l with
  | nil => intro i jj _; simp
  | cons a rest ih =>
    intro i jj hj
    rw [List.flatMap_cons]
    cases i with
    | zero =>
      rw [Nat.zero_mul, Nat.zero_add,
        List.getElem?_append_left (by rw [hf]; exact hj)]
      simp
    | succ i2 =>
      rw [List.getElem?_append_right (by rw [hf, Nat.succ_mul]; omega)]
      have harith : (i2 + 1) * m + jj - (f a).length = i2 * m + jj := by
        rw [hf, Nat.succ_mul]
        omega
      rw [harith, ih i2 jj hj]
      simp

/-- C2: for p ≥ 1 players and q ≥ 1 judge questions with distinct ids, the
fan-out's result list has exactly p·q entries, whose `(playerId, questionId)`
keys are pairwise distinct; the entry at position `i·q + j` is determined by
pair `(i, j)`'s own call outcome alone; and a thrown fault for a pair
becomes that pair's `AIAnswerError` (classified, carrying the message) and
nothing else. -/
theorem answers_fanout (gameId : List Char) (players : List PlayerIn)
    (questions : List JudgeQuestion) (oracle : PlayerIn → JudgeQuestion → CallOutcome)
    (hp : players ≠ []) (hq : questions ≠ [])
    (hpn : (players.map (fun p => p.id)).Nodup)
    (hqn : (questions.map (fun q => q.id)).Nodup) :
    (generateAnswersResults gameId players questions oracle).length =
      players.length * questions.length ∧
    ((generateAnswersResults gameId players questions oracle).map keyOf).Nodup ∧
    (∀ i j, i < players.length → j < questions.length →
      (generateAnswersResults gameId players questions oracle)[i * questions.length + j]? =
        players[i]?.bind (fun p =>
          (questions[j]?.map (fun q => processPair gameId p q (oracle p q))))) ∧
    (∀ p q msg, p ∈ players → q ∈ questions → oracle p q = .thrown msg →
      processPair gameId p q (oracle p q) =
        .inr ⟨p.id, q.id, classifyErr msg, some msg⟩) := by
  refine ⟨generateAnswersResults_length gameId players questions oracle, ?_, ?_, ?_⟩
  · rw [generateAnswersResults_keys]
    exact nodup_pair_flatMap (fun p => p.id) (fun q => q.id) questions hqn players hpn
  · intro i j _ hj
    unfold generateAnswersResults
    rw [flatMap_uniform_getElem? _ questions.length (fun a => by simp) _ i j hj]
    cases hi : players[i]? with
    | none => rfl
    | some p => simp
  · intro p q msg _ _ ho
    rw [ho]
    rfl

/-- Witness for C2: two players, two questions, one pair throwing. -/
theorem answers_fanout_witness :
    ((generateAnswersResults (("g1").toList)
      [⟨("p1").toList, ("g1").toList, some (("hi").toList), some (("A").toList)⟩,
       ⟨("p2").toList, ("g1").toList, none, none⟩]
      [⟨("q1").toList, ("Q1").toList⟩, ⟨("q2").toList, ("Q2").toList⟩]
      (fun p _ => if p.id == ("p2").toList then .thrown (("content filter hit").toList)
        else .response [some (("ok").toList)])).length = 2 * 2) ∧
    (((generateAnswersResults (("g1").toList)
      [⟨("p1").toList, ("g1").toList, some (("hi").toList), some (("A").toList)⟩,
       ⟨("p2").toList, ("g1").toList, none, none⟩]
      [⟨("q1").toList, ("Q1").toList⟩, ⟨("q2").toList, ("Q2").toList⟩]
      (fun p _ => if p.id == ("p2").toList then .thrown (("content filter hit").toList)
        else .response [some (("ok").toList)])).map keyOf).Nodup) :=
  ⟨(answers_fanout _ _ _ _ (by decide) (by decide) (by decide) (by decide)).1,
   (answers_fanout _ _ _ _ (by decide) (by decide) (by decide) (by decide)).2.1⟩

/-! ### Empty content versus empty choices (claim C10) -/

/-- C10: a completion whose choices list is nonempty but whose first choice
has missing or empty message content is a success: an `AIAnswer` with the
empty string as its answer, kept by the success filter (hence persisted);
the `"Empty response from AI service"` classification arises exactly from a
falsy response or an empty choices list, and a thrown error is classified
differently. -/
theorem empty_content_vs_empty_choices (gameId : List Char) (p : PlayerIn)
    (q : JudgeQuestion) (c0 : Option (List Char)) (rest : List (Option (List Char)))
    (hc0 : c0 = none ∨ c0 = some []) :
    processPair gameId p q (.response (c0 :: rest)) =
      .inl ⟨gameId ++ ("-").toList ++ p.id ++ ("-").toList ++ q.id, p.gameId, p.id,
            jsOrStr p.screenName (("Unknown Player").toList), q.id, q.content,
            p.prompt, []⟩ ∧
    successfulOf [processPair gameId p q (.response (c0 :: rest))] =
      [⟨gameId ++ ("-").toList ++ p.id ++ ("-").toList ++ q.id, p.gameId, p.id,
        jsOrStr p.screenName (("Unknown Player").toList), q.id, q.content,
        p.prompt, []⟩] ∧
    errOf (processPair gameId p q .nullResponse) =
      some (("Empty response from AI service").toList) ∧
    (∀ cs, errOf (processPair gameId p q (.response cs)) =
      if cs.isEmpty then some (("Empty response from AI service").toList) else none) ∧
    (∀ m, errOf (processPair gameId p q (.thrown m)) = some (classifyErr m) ∧
      classifyErr m ≠ (("Empty response from AI service").toList)) := by
  refine ⟨?_, ?_, rfl, ?_, ?_⟩
  · rcases hc0 with rfl | rfl <;> rfl
  · rcases hc0 with rfl | rfl <;> rfl
  · intro cs
    cases cs <;> rfl
  · intro m
    refine ⟨rfl, ?_⟩
    unfold classifyErr
    split
    · decide
    · decide

/-- Witness for C10 at a concrete empty-content choice. -/
theorem empty_content_vs_empty_choices_witness :
    processPair (("g1").toList) ⟨("p1").toList, ("g1").toList, none, none⟩
      ⟨("q1").toList, ("Q?").toList⟩ (.response [some []]) =
      .inl ⟨(("g1").toList) ++ ("-").toList ++ (("p1").toList) ++ ("-").toList ++
            (("q1").toList), ("g1").toList, ("p1").toList,
            jsOrStr none (("Unknown Player").toList), ("q1").toList, ("Q?").toList,
            none, []⟩ :=
  (empty_content_vs_empty_choices (("g1").toList) _ _ (some []) []
    (Or.inr rfl)).1

end PQuiz
